import Mathlib

/-!
# loader.c (svc_stalker pongoOS module loader): shallow embedding

The program talks to libusb, the file system and the clock.  Every external
call is recorded, in program order, in a trace of `Call`s (operation plus the
value it returned); the value returned by the n-th call of a run is chosen by
the environment `Env` (what the n-th call is follows from the values returned
before it, so this covers every deterministic environment).  The only
place where the program can fail to terminate is the event loop that waits for
the device: the environment hands over the hotplug events of every
`libusb_handle_events_completed` call as a finite script, and a script that is
used up without a device means the loop waits forever (`Outcome.hang`).
-/

namespace Loader

/-! ## External calls -/

/-- A non-NULL `libusb_device_handle *`. -/
abbrev Handle := Nat

/-- A `libusb_device *`. -/
abbrev Device := Nat

/-- Arguments of a `printf` call. -/
inductive PrintArg where
  | int (v : Int)
  | size (v : Nat)
  | str (s : String)
  | libusb_error_name (err : Int)
  | strerror_errno
deriving DecidableEq, Repr

/-- The external calls made by loader.c.  Pointers to memory are given by what
they point to: `data` of a control transfer is `none` for NULL and otherwise
the bytes stored from that address on. -/
inductive Op where
  | printf (fmt : String) (args : List PrintArg)
  | libusb_init
  | libusb_exit
  | libusb_hotplug_register_callback (vendor_id product_id : Nat)
  | libusb_handle_events_completed
  | libusb_hotplug_deregister_callback (cbh : Int)
  | libusb_open (device : Device)
  | libusb_claim_interface (dev : Handle) (interface_number : Nat)
  | libusb_release_interface (dev : Handle) (interface_number : Nat)
  | libusb_close (dev : Handle)
  | libusb_control_transfer (dev : Handle) (bmRequestType bRequest wValue wIndex : Nat)
      (data : Option (List Nat)) (wLength : Nat) (timeout : Nat)
  | libusb_bulk_transfer (dev : Handle) (endpoint : Nat) (data : Int) (length : Int)
      (timeout : Nat)
  | stat (path : String)
  | open_rdonly (path : String)
  | mmap (length : Nat) (fd : Int)
  | munmap (addr : Int) (length : Nat)
  | usleep (usec : Nat)
deriving DecidableEq, Repr

/-- One external call as it happened: the operation and the value it returned
(for a call whose value the program ignores the value is recorded all the same). -/
structure Call where
  op : Op
  ret : Int
deriving DecidableEq, Repr

abbrev Trace := List Call

/-- The events `LIBUSB_HOTPLUG_EVENT_DEVICE_ARRIVED` and `LIBUSB_HOTPLUG_EVENT_DEVICE_LEFT`. -/
inductive HotplugEvent where
  | DEVICE_ARRIVED
  | DEVICE_LEFT
deriving DecidableEq, Repr

/-- One invocation of the hotplug callback by libusb: the event, the device it
is about, and the handle `libusb_open` stores for that device when it succeeds. -/
structure Hotplug where
  event : HotplugEvent
  device : Device
  handle : Handle
deriving DecidableEq, Repr

/-- The environment of one run of the program. -/
structure Env where
  /-- Command line; `argc` is its length. -/
  argv : List String
  /-- Value returned by the n-th external call of the run (counted from 0). -/
  ret : Nat → Int
  /-- Callback handle stored by `libusb_hotplug_register_callback`. -/
  cbh : Int
  /-- Callback invocations made inside `libusb_hotplug_register_callback`
  (`LIBUSB_HOTPLUG_ENUMERATE`: devices that are already attached). -/
  enumerated : List Hotplug
  /-- Callback invocations made inside each successive
  `libusb_handle_events_completed` call. -/
  pumps : List (List Hotplug)
  /-- The `st_size` that `stat` stores for the module file. -/
  st_size : Nat

/-- Perform one external call: ask the environment for the returned value and
append the call to the trace. -/
def exec (env : Env) (tr : Trace) (op : Op) : Int × Trace :=
  (env.ret tr.length, tr ++ [⟨op, env.ret tr.length⟩])

/-- How a piece of the program ends: it goes on with a value, the process exits
with a code, or the process waits forever. -/
inductive Ctl (α : Type) where
  | next (v : α) (tr : Trace)
  | exit (code : Int) (tr : Trace)
  | hang (tr : Trace)
deriving DecidableEq, Repr

/-- How a run of `main` ends. -/
inductive Outcome where
  | exit (code : Int) (tr : Trace)
  | hang (tr : Trace)
deriving DecidableEq, Repr

def Outcome.trace : Outcome → Trace
  | .exit _ tr => tr
  | .hang tr => tr

def Outcome.code : Outcome → Option Int
  | .exit c _ => some c
  | .hang _ => none

/-! ## C data -/

/-- The value `MAP_FAILED`, which is `(void *) -1`. -/
def MAP_FAILED : Int := -1

/-- Bytes of a string literal in memory: its characters and the terminating NUL. -/
def cstr (s : String) : List Nat := s.toList.map Char.toNat ++ [0]

/-- The C `strlen`: number of bytes before the first NUL. -/
def strlen (mem : List Nat) : Nat := (mem.takeWhile (fun b => b != 0)).length

/-- Conversion of a `size_t` to `uint16_t` (the `wLength` parameter of
`libusb_control_transfer`). -/
def to_uint16 (n : Nat) : Nat := n % 2 ^ 16

/-- Conversion of a `size_t` to `int` (the `length` parameter of
`libusb_bulk_transfer`), two's complement. -/
def to_int (n : Nat) : Int := ((n + 2 ^ 31) % 2 ^ 32 : Nat) - 2 ^ 31

/-- The bytes a host-to-device control transfer carries: the first `wLength`
bytes at `data`. -/
def payload (data : Option (List Nat)) (wLength : Nat) : List Nat :=
  (data.getD []).take wLength

/-! ## loader.c -/

/-- Lines 13-22.  `command` is NULL (`none`) or points to the bytes `mem`;
`command_len` is a `size_t` and is converted to the `uint16_t wLength` parameter
of `libusb_control_transfer`. -/
def pongo_send_command (env : Env) (tr : Trace) (pongo_device : Handle)
    (command : Option (List Nat)) : Int × Trace :=
  let command_len : Nat := 1
  let command_len : Nat :=
    match command with
    | some mem => (command_len + strlen mem) % 2 ^ 64
    | none => command_len
  exec env tr (.libusb_control_transfer pongo_device 0x21 3 0 0 command
    (to_uint16 command_len) 0)

/-- Lines 24-26. -/
def pongo_init_bulk_upload (env : Env) (tr : Trace) (pongo_device : Handle) : Int × Trace :=
  exec env tr (.libusb_control_transfer pongo_device 0x21 1 0 0 none 0 0)

/-- Lines 28-30. -/
def pongo_discard_bulk_upload (env : Env) (tr : Trace) (pongo_device : Handle) : Int × Trace :=
  exec env tr (.libusb_control_transfer pongo_device 0x21 2 0 0 none 0 0)

/-- Lines 32-35.  `len` is a `size_t` and is converted to the `int length`
parameter of `libusb_bulk_transfer`; `data` is the address of the mapping. -/
def pongo_do_bulk_upload (env : Env) (tr : Trace) (pongo_device : Handle)
    (data : Int) (len : Nat) : Int × Trace :=
  exec env tr (.libusb_bulk_transfer pongo_device 2 data (to_int len) 0)

/-- Lines 37-40; `outbuf` is written by the device and not modelled. -/
def pongo_get_stdout (env : Env) (tr : Trace) (pongo_device : Handle) : Int × Trace :=
  exec env tr (.libusb_control_transfer pongo_device 0xa1 1 0 0 (some []) 512 0)

/-- Lines 42-57.  `user_data` is the current value of `pongo_device` in `main`
(`none` is NULL); the value after the call is returned next to the callback's
return value.  `libusb_open` stores the new handle when it returns 0 and leaves
the pointer alone otherwise. -/
def hotplug_callback (env : Env) (tr : Trace) (hp : Hotplug)
    (user_data : Option Handle) : Ctl (Int × Option Handle) :=
  if hp.event ≠ HotplugEvent.DEVICE_ARRIVED then
    .next (0, user_data) tr
  else
    let r := exec env tr (.libusb_open hp.device)
    let err := r.1
    let pongo_device := if err = 0 then some hp.handle else user_data
    if err ≠ 0 then
      let r := exec env r.2
        (.printf "Couldn't open pongoOS device: %s\n" [.libusb_error_name err])
      let r := exec env r.2 .libusb_exit
      .exit 1 r.2
    else
      .next (0, pongo_device) r.2

/-- The callback invocations libusb makes inside one of its calls, in order. -/
def deliver (env : Env) : List Hotplug → Option Handle → Trace → Ctl (Option Handle)
  | [], pongo_device, tr => .next pongo_device tr
  | hp :: rest, pongo_device, tr =>
    match hotplug_callback env tr hp pongo_device with
    | .next v tr1 => deliver env rest v.2 tr1
    | .exit c tr1 => .exit c tr1
    | .hang tr1 => .hang tr1

/-- Lines 86-87: `while(!pongo_device) libusb_handle_events_completed(NULL, NULL);`
over the script of callback invocations of the successive calls. -/
def wait_for_device (env : Env) : List (List Hotplug) → Option Handle → Trace → Ctl Handle
  | _, some h, tr => .next h tr
  | [], none, tr => .hang tr
  | hps :: rest, none, tr =>
    match deliver env hps none (exec env tr .libusb_handle_events_completed).2 with
    | .next pongo_device tr1 => wait_for_device env rest pongo_device tr1
    | .exit c tr1 => .exit c tr1
    | .hang tr1 => .hang tr1

/-- The three cleanup calls that end every path of `main` after discovery. -/
def unwind (env : Env) (tr : Trace) (pongo_device : Handle) : Trace :=
  let r := exec env tr (.libusb_release_interface pongo_device 0)
  let r := exec env r.2 (.libusb_close pongo_device)
  let r := exec env r.2 .libusb_exit
  r.2

/-- Lines 93-201 of `main`: everything after the device handle is there. -/
def main_session (env : Env) (pongo_device : Handle) (tr : Trace) : Outcome :=
  let r := exec env tr (.libusb_claim_interface pongo_device 0)
  let err := r.1
  if err < 0 then
    let r := exec env r.2 (.printf "libusb_claim_interface: %s\n" [.libusb_error_name err])
    .exit 1 (unwind env r.2 pongo_device)
  else
  let module_path := env.argv.getD 1 ""
  let r := exec env r.2 (.stat module_path)
  if r.1 ≠ 0 then
    let r := exec env r.2 (.printf "Problem stat'ing '%s': %s\n" [.str module_path, .strerror_errno])
    .exit 1 (unwind env r.2 pongo_device)
  else
  let r := exec env r.2 (.open_rdonly module_path)
  let module_fd := r.1
  if module_fd < 0 then
    let r := exec env r.2 (.printf "Problem open'ing '%s': %s\n" [.str module_path, .strerror_errno])
    .exit 1 (unwind env r.2 pongo_device)
  else
  let module_size := env.st_size % 2 ^ 64
  let r := exec env r.2 (.printf "Module size %#lx\n" [.size module_size])
  let r := exec env r.2 (.mmap module_size module_fd)
  let module_data := r.1
  if module_data = MAP_FAILED then
    let r := exec env r.2 (.printf "Problem mmap'ing '%s': %s\n" [.str module_path, .strerror_errno])
    .exit 1 (unwind env r.2 pongo_device)
  else
  let r := pongo_init_bulk_upload env r.2 pongo_device
  let err := r.1
  if err < 0 then
    let r := exec env r.2 (.printf "pongo_init_bulk_upload: %s\n" [.libusb_error_name err])
    let r := exec env r.2 (.munmap module_data module_size)
    .exit 1 (unwind env r.2 pongo_device)
  else
  let r := pongo_do_bulk_upload env r.2 pongo_device module_data module_size
  let err := r.1
  if err < 0 then
    let r := exec env r.2 (.printf "pongo_do_bulk_upload: %s\n" [.libusb_error_name err])
    let r := exec env r.2 (.munmap module_data module_size)
    .exit 1 (unwind env r.2 pongo_device)
  else
  let r := pongo_send_command env r.2 pongo_device (some (cstr "modload\n"))
  let err := r.1
  if err < 0 then
    let r := exec env r.2 (.printf "pongo_send_command: %s\n" [.libusb_error_name err])
    let r := exec env r.2 (.munmap module_data module_size)
    .exit 1 (unwind env r.2 pongo_device)
  else
  let r := exec env r.2 (.munmap module_data module_size)
  let r := exec env r.2 (.usleep (200 * 1000))
  let r := pongo_send_command env r.2 pongo_device (some (cstr "stalker-prep\n"))
  let err := r.1
  if err < 0 then
    let r := exec env r.2 (.printf "pongo_send_command: %s\n" [.libusb_error_name err])
    .exit 1 (unwind env r.2 pongo_device)
  else
  let r := exec env r.2 (.usleep (200 * 1000))
  let r := pongo_send_command env r.2 pongo_device (some (cstr "bootx\n"))
  let err := r.1
  if err < 0 then
    let r := exec env r.2 (.printf "pongo_send_command: %s\n" [.libusb_error_name err])
    .exit 1 (unwind env r.2 pongo_device)
  else
  .exit 0 (unwind env r.2 pongo_device)

/-- Lines 77-89 of `main`: registration of the hotplug callback (which, with
`LIBUSB_HOTPLUG_ENUMERATE`, already invokes it for attached devices), the wait
loop and the deregistration. -/
def main_watch (env : Env) (tr : Trace) : Ctl Handle :=
  let r := exec env tr (.libusb_hotplug_register_callback 0x5ac 0x4141)
  let err := r.1
  match deliver env env.enumerated none r.2 with
  | .exit c tr1 => .exit c tr1
  | .hang tr1 => .hang tr1
  | .next pongo_device tr1 =>
    if err < 0 then
      let r := exec env tr1
        (.printf "libusb_hotplug_register_callback: %s\n" [.libusb_error_name err])
      .exit 1 r.2
    else
      match wait_for_device env env.pumps pongo_device tr1 with
      | .exit c tr2 => .exit c tr2
      | .hang tr2 => .hang tr2
      | .next h tr2 =>
        let r := exec env tr2 (.libusb_hotplug_deregister_callback env.cbh)
        let r := exec env r.2 (.printf "Got pongoOS device\n" [])
        .next h r.2

/-- Lines 59-91 of `main`: everything up to the point where the device handle is there. -/
def main_discovery (env : Env) : Ctl Handle :=
  let argc := env.argv.length
  if argc < 2 then
    .exit 1 (exec env [] (.printf "usage: loader <pongo module>\n" [])).2
  else
  let r := exec env [] .libusb_init
  let err := r.1
  if err < 0 then
    .exit 1 (exec env r.2 (.printf "libusb_init failed: %d\n" [.int err])).2
  else
  let r := exec env r.2 (.printf "Waiting for pongoOS device...\n" [])
  main_watch env r.2

/-- Lines 59-202. -/
def main (env : Env) : Outcome :=
  match main_discovery env with
  | .exit c tr => .exit c tr
  | .hang tr => .hang tr
  | .next pongo_device tr => main_session env pongo_device tr


/-! ## Reading a trace -/

/-- The operations of a trace, in order. -/
def ops (tr : Trace) : List Op := tr.map Call.op

/-- A control or bulk transfer. -/
def Op.isTransfer : Op → Bool
  | .libusb_control_transfer .. => true
  | .libusb_bulk_transfer .. => true
  | _ => false

def Op.isBulk : Op → Bool
  | .libusb_bulk_transfer .. => true
  | _ => false

/-- The control transfer with request-type `0x21` and the given request. -/
def Op.isRequest (request : Nat) : Op → Bool
  | .libusb_control_transfer _ bmRequestType bRequest _ _ _ _ _ =>
    bmRequestType == 0x21 && bRequest == request
  | _ => false

/-- Begin bulk upload: `0x21`, request 1. -/
def Op.isInit (o : Op) : Bool := o.isRequest 1

/-- Discard bulk upload: `0x21`, request 2. -/
def Op.isDiscard (o : Op) : Bool := o.isRequest 2

/-- Send a command: `0x21`, request 3. -/
def Op.isCommand (o : Op) : Bool := o.isRequest 3

def Op.isRelease : Op → Bool
  | .libusb_release_interface .. => true
  | _ => false

def Op.isClose : Op → Bool
  | .libusb_close .. => true
  | _ => false

def Op.isSleep : Op → Bool
  | .usleep .. => true
  | _ => false

def Op.isOpen : Op → Bool
  | .libusb_open .. => true
  | _ => false

def Op.isMmap : Op → Bool
  | .mmap .. => true
  | _ => false

def Op.isMunmap : Op → Bool
  | .munmap .. => true
  | _ => false

/-- The calls on the module file: `stat`, `open`, `mmap`. -/
def Op.isFile : Op → Bool
  | .stat .. => true
  | .open_rdonly .. => true
  | .mmap .. => true
  | _ => false

/-- The device-session operations: open, claim, transfers, sleeps, release, close. -/
def Op.isSessionOp : Op → Bool
  | .libusb_open .. => true
  | .libusb_claim_interface .. => true
  | .libusb_release_interface .. => true
  | .libusb_close .. => true
  | .libusb_control_transfer .. => true
  | .libusb_bulk_transfer .. => true
  | .usleep .. => true
  | _ => false

/-- The calls that lines 59-91 can make. -/
def Op.isDiscoveryOp : Op → Bool
  | .printf .. => true
  | .libusb_init => true
  | .libusb_exit => true
  | .libusb_hotplug_register_callback .. => true
  | .libusb_handle_events_completed => true
  | .libusb_hotplug_deregister_callback .. => true
  | .libusb_open .. => true
  | _ => false

/-- The control transfer by which `pongo_send_command` sends the string literal `s`
(for a literal short enough for `wLength`). -/
def sendOp (dev : Handle) (s : String) : Op :=
  .libusb_control_transfer dev 0x21 3 0 0 (some (cstr s)) (s.length + 1) 0

/-- Success of a call: a libusb call succeeds when it returns a non-negative
value, `stat` when it returns 0, `open` when the descriptor is non-negative,
`mmap` when it does not return `MAP_FAILED`. -/
def Call.ok (c : Call) : Bool :=
  match c.op with
  | .stat _ => c.ret == 0
  | .mmap _ _ => c.ret != MAP_FAILED
  | _ => decide (0 ≤ c.ret)

/-- The steps of a run that can fail. -/
inductive Step where
  | libusb_init
  | hotplug_registration
  | device_open
  | interface_claim
  | stat
  | open_file
  | mmap
  | init_upload
  | bulk_upload
  | cmd_modload
  | cmd_stalker_prep
  | cmd_bootx
deriving DecidableEq, Repr

/-- The step a call belongs to. -/
def Op.step : Op → Option Step
  | .libusb_init => some .libusb_init
  | .libusb_hotplug_register_callback .. => some .hotplug_registration
  | .libusb_open .. => some .device_open
  | .libusb_claim_interface .. => some .interface_claim
  | .stat .. => some .stat
  | .open_rdonly .. => some .open_file
  | .mmap .. => some .mmap
  | .libusb_bulk_transfer .. => some .bulk_upload
  | .libusb_control_transfer _ _ bRequest _ _ data _ _ =>
    if bRequest = 1 then some .init_upload
    else if bRequest = 3 then
      if data = some (cstr "modload\n") then some .cmd_modload
      else if data = some (cstr "stalker-prep\n") then some .cmd_stalker_prep
      else if data = some (cstr "bootx\n") then some .cmd_bootx
      else none
    else none
  | _ => none

/-- The steps that were carried out with success, in order. -/
def succeeded (tr : Trace) : List Step :=
  tr.filterMap (fun c => if c.ok then c.op.step else none)

/-- The device arrivals among callback invocations. -/
def arrivals (hps : List Hotplug) : List Hotplug :=
  hps.filter (fun hp => hp.event = HotplugEvent.DEVICE_ARRIVED)

/-- All callback invocations the environment has in store. -/
def Env.script (env : Env) : List Hotplug := env.enumerated ++ env.pumps.flatten

/-- What follows the first operation satisfying `p`. -/
def after (p : Op → Bool) : List Op → List Op
  | [] => []
  | o :: os => if p o then os else after p os

/-- The trace a piece of the program leaves behind. -/
def Ctl.trace {α : Type} : Ctl α → Trace
  | .next _ tr => tr
  | .exit _ tr => tr
  | .hang tr => tr

/-- The value a piece of the program goes on with, if it does. -/
def Ctl.value? {α : Type} : Ctl α → Option α
  | .next v _ => some v
  | _ => none

/-- The calls whose returned value the program checks. -/
def Op.isChecked : Op → Bool
  | .libusb_init => true
  | .libusb_hotplug_register_callback .. => true
  | .libusb_open .. => true
  | .libusb_claim_interface .. => true
  | .stat .. => true
  | .open_rdonly .. => true
  | .mmap .. => true
  | .libusb_control_transfer .. => true
  | .libusb_bulk_transfer .. => true
  | _ => false

/-- Failure of a checked call as the program tests it: `libusb_open` and `stat`
fail when they return a non-zero value, `mmap` when it returns `MAP_FAILED`,
every other checked call when it returns a negative value. -/
def Call.failed (c : Call) : Bool :=
  c.op.isChecked &&
    match c.op with
    | .libusb_open _ => c.ret != 0
    | .stat _ => c.ret != 0
    | .mmap _ _ => c.ret == MAP_FAILED
    | _ => decide (c.ret < 0)

/-- The command `modload`: request-type `0x21`, request 3, carrying `"modload\n"`. -/
def Op.isModload : Op → Bool
  | .libusb_control_transfer _ bmRequestType bRequest _ _ data _ _ =>
    bmRequestType == 0x21 && bRequest == 3 && data == some (cstr "modload\n")
  | _ => false

/-- A claim of interface 0 of `dev`. -/
def Op.isClaim (dev : Handle) : Op → Bool
  | .libusb_claim_interface d i => d == dev && i == 0
  | _ => false

/-- A trace made of calls of lines 59-91 only. -/
def DiscTrace (tr : Trace) : Prop := ∀ c ∈ tr, c.op.isDiscoveryOp = true

/-- The property of C2 on an outcome: the process exits, and among the transfers, releases and closes of the
run all transfers come first, then one release of interface 0, then one close. -/
def ReleasedAndClosed (dev : Handle) (out : Outcome) : Prop :=
  (∃ code, out.code = some code) ∧
  (ops out.trace).filter (fun o => o.isTransfer || o.isRelease || o.isClose) =
    (ops out.trace).filter Op.isTransfer ++ [.libusb_release_interface dev 0, .libusb_close dev]

/-- The handle that is stored after the callback has run for the arrivals `arr`
with successful opens: that of the last one. -/
def last_handle (pd : Option Handle) (arr : List Hotplug) : Option Handle :=
  arr.foldl (fun _ hp => some hp.handle) pd

/-- The `libusb_open` calls of the callback for the arrivals `arr`. -/
def opens (arr : List Hotplug) : List Op := arr.map (fun hp => Op.libusb_open hp.device)

/-- The property of C6 on an outcome: every transfer but the last returned a non-negative value;
no failed init or bulk transfer, or else no command; no discard; at most one
init and one bulk transfer. -/
def TransfersStop (out : Outcome) : Prop :=
  (∀ c ∈ (out.trace.filter (fun x => x.op.isTransfer)).dropLast, 0 ≤ c.ret) ∧
  (out.trace.filter (fun x => (x.op.isInit || x.op.isBulk) && decide (x.ret < 0)) = [] ∨
    (ops out.trace).filter Op.isCommand = []) ∧
  (ops out.trace).filter Op.isDiscard = [] ∧
  ((ops out.trace).filter Op.isInit).length ≤ 1 ∧
  ((ops out.trace).filter Op.isBulk).length ≤ 1

/-- The property of C7 on an outcome of a session on `dev`: the sleeps and commands of the run
are, in order, a beginning of modload, 200 ms, stalker-prep, 200 ms, bootx that
ends with a command; and a modload command has returned a non-negative value, or
there is no sleep. -/
def SleepsBetween (dev : Handle) (out : Outcome) : Prop :=
  ((ops out.trace).filter (fun o => o.isSleep || o.isCommand) = [] ∨
    (ops out.trace).filter (fun o => o.isSleep || o.isCommand) = [sendOp dev "modload\n"] ∨
    (ops out.trace).filter (fun o => o.isSleep || o.isCommand) =
      [sendOp dev "modload\n", .usleep 200000, sendOp dev "stalker-prep\n"] ∨
    (ops out.trace).filter (fun o => o.isSleep || o.isCommand) =
      [sendOp dev "modload\n", .usleep 200000, sendOp dev "stalker-prep\n", .usleep 200000,
        sendOp dev "bootx\n"]) ∧
  (out.trace.filter (fun c => c.op.isModload && decide (0 ≤ c.ret)) ≠ [] ∨
    (ops out.trace).filter Op.isSleep = [])

/-- The property of C8 on an outcome of a session on `dev`: no call on the module file has
failed, or else the exit code is 1, there is no transfer, interface 0 was
claimed with success, and it is released and the device closed. -/
def FileFailureUnwinds (dev : Handle) (out : Outcome) : Prop :=
  out.trace.filter (fun c => c.op.isFile && !c.ok) = [] ∨
  (out.code = some 1 ∧ (ops out.trace).filter Op.isTransfer = [] ∧
    (ops out.trace).filter (fun o => o.isRelease || o.isClose) =
      [.libusb_release_interface dev 0, .libusb_close dev] ∧
    out.trace.filter (fun c => c.op.isClaim dev && decide (0 ≤ c.ret)) ≠ [])

/-- The property of C9 on an outcome of a session on `dev` for a module of `size` bytes: the
file was not mapped, or else the mapping comes before the init transfer (the
first transfer), it is unmapped exactly once, and when modload has returned a
non-negative value, the three calls after modload are the unmap, the 200 ms
sleep and stalker-prep. -/
def MappingReleased (dev : Handle) (size : Nat) (out : Outcome) : Prop :=
  out.trace.filter (fun c => c.op.isMmap && (c.ret != MAP_FAILED)) = [] ∨
  ∃ fd module_data, (⟨.mmap size fd, module_data⟩ : Call) ∈ out.trace ∧
    ((ops out.trace).filter (fun o => o.isMmap || o.isTransfer)).take 2 =
      [.mmap size fd, .libusb_control_transfer dev 0x21 1 0 0 none 0 0] ∧
    (ops out.trace).filter Op.isMunmap = [.munmap module_data size] ∧
    (out.trace.filter (fun c => c.op.isModload && decide (0 ≤ c.ret)) = [] ∨
      (after Op.isModload (ops out.trace)).take 3 =
        [.munmap module_data size, .usleep 200000, sendOp dev "stalker-prep\n"])

/-- The property of C3 on an outcome of a session that started from the trace `t0`: either the
code is 0 and all nine steps of the session succeeded, or the code is 1 and the
last step, bootx, did not succeed. -/
def CodeTellsSuccess (t0 : Trace) (out : Outcome) : Prop :=
  ∃ l, out.trace = t0 ++ l ∧
    ((out.code = some 0 ∧ succeeded l =
        [.interface_claim, .stat, .open_file, .mmap, .init_upload, .bulk_upload, .cmd_modload,
          .cmd_stalker_prep, .cmd_bootx]) ∨
      (out.code = some 1 ∧ Step.cmd_bootx ∉ succeeded l))

/-- The property of C3 on an outcome of a session that started from the trace
`t0`: either the code is 0 and no checked call of the session has failed, or the
code is 1 and a checked call of the session has failed. -/
def CodeTellsFailure (t0 : Trace) (out : Outcome) : Prop :=
  ∃ l, out.trace = t0 ++ l ∧
    ((out.code = some 0 ∧ l.filter Call.failed = []) ∨
      (out.code = some 1 ∧ l.filter Call.failed ≠ []))

/-- The property of C1 on an outcome of a session on `dev` for a module of `size` bytes that
started from the trace `t0`: a checked call has failed, or else the code is 0
and the device-session operations are the ten of the success sequence. -/
def SessionSucceeds (dev : Handle) (size : Nat) (t0 : Trace) (out : Outcome) : Prop :=
  ∃ l, out.trace = t0 ++ l ∧
    (l.filter Call.failed ≠ [] ∨
      (out.code = some 0 ∧ ∃ module_data : Int,
        (ops l).filter Op.isSessionOp =
          [.libusb_claim_interface dev 0,
            .libusb_control_transfer dev 0x21 1 0 0 none 0 0,
            .libusb_bulk_transfer dev 2 module_data (to_int size) 0,
            sendOp dev "modload\n", .usleep 200000,
            sendOp dev "stalker-prep\n", .usleep 200000,
            sendOp dev "bootx\n",
            .libusb_release_interface dev 0, .libusb_close dev]))

/-! ## Concrete inputs -/

/-- One device arrives during the second `libusb_handle_events_completed`; `open`
returns descriptor 3, `mmap` returns address 0x10000, every other call returns 0. -/
def env_one : Env :=
  { argv := ["loader", "module.bin"],
    ret := fun n => if n = 10 then 3 else if n = 12 then 0x10000 else 0,
    cbh := 1, enumerated := [], pumps := [[], [⟨.DEVICE_ARRIVED, 1, 11⟩]], st_size := 65536 }

/-- As `env_one`, for a module file of 4 GiB. -/
def env_huge : Env := { env_one with st_size := 2 ^ 32 }

/-- As `env_one`, but `stat` fails. -/
def env_stat_fails : Env :=
  { env_one with ret := fun n => if n = 9 then -1 else 0 }

/-- As `env_one`, but the bulk transfer fails. -/
def env_bulk_fails : Env :=
  { env_one with
    ret := fun n => if n = 10 then 3 else if n = 12 then 0x10000 else if n = 14 then -1 else 0 }

/-- As `env_one`, but the modload command fails. -/
def env_modload_fails : Env :=
  { env_one with
    ret := fun n => if n = 10 then 3 else if n = 12 then 0x10000 else if n = 15 then -1 else 0 }

/-- Two matching devices are attached when the callback is registered. -/
def env_two : Env :=
  { argv := ["loader", "module.bin"],
    ret := fun n => if n = 9 then 3 else if n = 11 then 0x10000 else 0,
    cbh := 1, enumerated := [⟨.DEVICE_ARRIVED, 1, 11⟩, ⟨.DEVICE_ARRIVED, 2, 12⟩], pumps := [],
    st_size := 65536 }


/-- An environment in which every call returns 0 and no hotplug event comes. -/
def env_zero : Env :=
  { argv := ["loader", "module.bin"], ret := fun _ => 0, cbh := 1,
    enumerated := [], pumps := [], st_size := 65536 }

/-- A command of 65535 letters `a`. -/
def long_command : List Nat := List.replicate 65535 97

/-! ## Strings -/

theorem strlen_append_nul (c rest : List Nat) (hc : ∀ b ∈ c, b ≠ 0) :
    strlen (c ++ 0 :: rest) = c.length := by
  induction c with
  | nil => simp [strlen]
  | cons b c ih =>
    have hb : b ≠ 0 := hc b (by simp)
    have ih := ih (fun x hx => hc x (by simp [hx]))
    simp only [strlen] at ih ⊢
    have hb1 : (b != 0) = true := by simpa using hb
    rw [List.cons_append, List.takeWhile_cons, hb1]
    simp [ih]

theorem cstr_modload : cstr "modload\n" = [109, 111, 100, 108, 111, 97, 100, 10, 0] := by
  decide

theorem cstr_stalker_prep :
    cstr "stalker-prep\n" = [115, 116, 97, 108, 107, 101, 114, 45, 112, 114, 101, 112, 10, 0] := by
  decide

theorem cstr_bootx : cstr "bootx\n" = [98, 111, 111, 116, 120, 10, 0] := by
  decide

theorem strlen_modload : strlen (cstr "modload\n") = 8 := by decide

theorem strlen_stalker_prep : strlen (cstr "stalker-prep\n") = 13 := by decide

theorem strlen_bootx : strlen (cstr "bootx\n") = 6 := by decide

/-! ## The command channel -/

theorem pongo_send_command_some (env : Env) (tr : Trace) (dev : Handle) (mem : List Nat) :
    pongo_send_command env tr dev (some mem) =
      (env.ret tr.length,
        tr ++ [⟨.libusb_control_transfer dev 0x21 3 0 0 (some mem)
          ((1 + strlen mem) % 2 ^ 64 % 2 ^ 16) 0, env.ret tr.length⟩]) := rfl

theorem pongo_send_command_none (env : Env) (tr : Trace) (dev : Handle) :
    pongo_send_command env tr dev none =
      (env.ret tr.length,
        tr ++ [⟨.libusb_control_transfer dev 0x21 3 0 0 none 1 0, env.ret tr.length⟩]) := rfl

/-- C4, counterexample: for the command of 65535 letters `a`, `strlen(c)+1` is
65536, and `pongo_send_command` asks for a control transfer of length 0 (the
`size_t` length is converted to the 16-bit `wLength`), which carries nothing. -/
theorem C4_counterexample :
    (∀ b ∈ long_command, b ≠ 0) ∧
    strlen (long_command ++ [0]) + 1 = 65536 ∧
    pongo_send_command env_zero [] 7 (some (long_command ++ [0])) =
      (0, [⟨.libusb_control_transfer 7 0x21 3 0 0 (some (long_command ++ [0])) 0 0, 0⟩]) ∧
    payload (some (long_command ++ [0])) 0 = [] := by
  have hc : ∀ b ∈ long_command, b ≠ 0 := by
    intro b hb
    have := List.eq_of_mem_replicate hb
    omega
  have hlen : strlen (long_command ++ [0]) = 65535 := by
    rw [strlen_append_nul _ _ hc]
    exact List.length_replicate _ _
  refine ⟨hc, by rw [hlen], ?_, List.take_zero _⟩
  rw [pongo_send_command_some, hlen]
  rfl

/-- C4, amended: for every command string `c` (bytes without NUL, followed in
memory by its NUL) with `strlen(c)+1 < 2^16`, `pongo_send_command` issues exactly
one control transfer, with request-type 0x21, request 3, value 0, index 0,
timeout 0 and length `strlen(c)+1`, whose payload is `c` followed by one NUL,
and returns the value that transfer returned; for the empty string and for an
absent command (NULL) the length is 1. -/
theorem C4_send_command (env : Env) (tr : Trace) (dev : Handle) (c rest : List Nat)
    (hc : ∀ b ∈ c, b ≠ 0) (hlen : c.length + 1 < 2 ^ 16) :
    strlen (c ++ 0 :: rest) = c.length ∧
    pongo_send_command env tr dev (some (c ++ 0 :: rest)) =
      (env.ret tr.length,
        tr ++ [⟨.libusb_control_transfer dev 0x21 3 0 0 (some (c ++ 0 :: rest)) (c.length + 1) 0,
          env.ret tr.length⟩]) ∧
    payload (some (c ++ 0 :: rest)) (c.length + 1) = c ++ [0] ∧
    pongo_send_command env tr dev (some (0 :: rest)) =
      (env.ret tr.length,
        tr ++ [⟨.libusb_control_transfer dev 0x21 3 0 0 (some (0 :: rest)) 1 0,
          env.ret tr.length⟩]) ∧
    pongo_send_command env tr dev none =
      (env.ret tr.length,
        tr ++ [⟨.libusb_control_transfer dev 0x21 3 0 0 none 1 0, env.ret tr.length⟩]) := by
  have hs := strlen_append_nul c rest hc
  have h0 : strlen (0 :: rest) = 0 := by simp [strlen]
  have h64 : (1 + c.length) % 2 ^ 64 = c.length + 1 := by
    rw [Nat.mod_eq_of_lt (by omega)]; omega
  have h16 : (c.length + 1) % 2 ^ 16 = c.length + 1 := Nat.mod_eq_of_lt hlen
  refine ⟨hs, ?_, ?_, ?_, ?_⟩
  · rw [pongo_send_command_some, hs, h64, h16]
  · simp [payload, List.take_append_eq_append_take]
  · rw [pongo_send_command_some, h0]
    rfl
  · rfl

/-- C4, amended, at the command `"bootx\n"`. -/
theorem C4_send_command_witness :
    (∀ b ∈ [98, 111, 111, 116, 120, 10], b ≠ 0) ∧ [98, 111, 111, 116, 120, 10].length + 1 < 2 ^ 16 ∧
    pongo_send_command env_zero [] 7 (some ([98, 111, 111, 116, 120, 10] ++ 0 :: [])) =
      (env_zero.ret ([] : Trace).length,
        [] ++ [⟨.libusb_control_transfer 7 0x21 3 0 0
          (some ([98, 111, 111, 116, 120, 10] ++ 0 :: [])) ([98, 111, 111, 116, 120, 10].length + 1) 0,
          env_zero.ret ([] : Trace).length⟩]) :=
  ⟨by decide, by decide,
    (C4_send_command env_zero [] 7 [98, 111, 111, 116, 120, 10] [] (by decide) (by decide)).2.1⟩

/-! ## Case analysis -/

theorem ite_elim {α : Type} {P : α → Prop} {c : Prop} [Decidable c] {a b : α}
    (ha : c → P a) (hb : ¬c → P b) : P (if c then a else b) := by
  by_cases h : c
  · rw [if_pos h]; exact ha h
  · rw [if_neg h]; exact hb h

theorem ops_append (a b : Trace) : ops (a ++ b) = ops a ++ ops b := by
  simp [ops]

theorem filter_ops_disc (p : Op → Bool) (tr : Trace) (ht : DiscTrace tr)
    (hp : ∀ o : Op, o.isDiscoveryOp = true → p o = false) : (ops tr).filter p = [] := by
  rw [List.filter_eq_nil_iff]
  intro o ho
  simp only [ops, List.mem_map] at ho
  obtain ⟨c, hc, rfl⟩ := ho
  simp [hp c.op (ht c hc)]

/-! ## Discovery -/

theorem DiscTrace.append {t l : Trace} (ht : DiscTrace t)
    (hl : ∀ c ∈ l, c.op.isDiscoveryOp = true) : DiscTrace (t ++ l) := by
  intro c hc
  rcases List.mem_append.1 hc with h | h
  · exact ht c h
  · exact hl c h

theorem callback_not_arrived (env : Env) (tr : Trace) (hp : Hotplug) (pd : Option Handle)
    (he : hp.event ≠ HotplugEvent.DEVICE_ARRIVED) :
    hotplug_callback env tr hp pd = .next (0, pd) tr := by
  unfold hotplug_callback
  rw [if_pos he]

theorem callback_open_ok (env : Env) (tr : Trace) (hp : Hotplug) (pd : Option Handle)
    (he : hp.event = HotplugEvent.DEVICE_ARRIVED) (hr : env.ret tr.length = 0) :
    hotplug_callback env tr hp pd =
      .next (0, some hp.handle) (tr ++ [⟨.libusb_open hp.device, env.ret tr.length⟩]) := by
  unfold hotplug_callback
  rw [if_neg (not_not.2 he)]
  simp only [exec]
  rw [if_neg (not_not.2 hr), if_pos hr]

theorem callback_open_failed (env : Env) (tr : Trace) (hp : Hotplug) (pd : Option Handle)
    (he : hp.event = HotplugEvent.DEVICE_ARRIVED) (hr : env.ret tr.length ≠ 0) :
    hotplug_callback env tr hp pd =
      .exit 1 (tr ++ [⟨.libusb_open hp.device, env.ret tr.length⟩,
        ⟨.printf "Couldn't open pongoOS device: %s\n" [.libusb_error_name (env.ret tr.length)],
          env.ret (tr.length + 1)⟩,
        ⟨.libusb_exit, env.ret (tr.length + 2)⟩]) := by
  unfold hotplug_callback
  rw [if_neg (not_not.2 he)]
  simp only [exec]
  rw [if_pos hr]
  simp

theorem main_watch_eq (env : Env) (tr : Trace) :
    main_watch env tr =
      match deliver env env.enumerated none
          (tr ++ [⟨.libusb_hotplug_register_callback 0x5ac 0x4141, env.ret tr.length⟩]) with
      | .exit c tr1 => .exit c tr1
      | .hang tr1 => .hang tr1
      | .next pongo_device tr1 =>
        if env.ret tr.length < 0 then
          .exit 1 (tr1 ++ [⟨.printf "libusb_hotplug_register_callback: %s\n"
            [.libusb_error_name (env.ret tr.length)], env.ret tr1.length⟩])
        else
          match wait_for_device env env.pumps pongo_device tr1 with
          | .exit c tr2 => .exit c tr2
          | .hang tr2 => .hang tr2
          | .next h tr2 =>
            .next h (tr2 ++ [⟨.libusb_hotplug_deregister_callback env.cbh, env.ret tr2.length⟩,
              ⟨.printf "Got pongoOS device\n" [], env.ret (tr2.length + 1)⟩]) := by
  unfold main_watch
  simp [exec]

theorem main_discovery_eq (env : Env) :
    main_discovery env =
      if env.argv.length < 2 then
        .exit 1 [⟨.printf "usage: loader <pongo module>\n" [], env.ret 0⟩]
      else if env.ret 0 < 0 then
        .exit 1 [⟨.libusb_init, env.ret 0⟩,
          ⟨.printf "libusb_init failed: %d\n" [.int (env.ret 0)], env.ret 1⟩]
      else
        main_watch env [⟨.libusb_init, env.ret 0⟩,
          ⟨.printf "Waiting for pongoOS device...\n" [], env.ret 1⟩] := by
  unfold main_discovery
  simp [exec]

theorem wait_cons_none (env : Env) (hps : List Hotplug) (rest : List (List Hotplug)) (tr : Trace) :
    wait_for_device env (hps :: rest) none tr =
      match deliver env hps none
          (tr ++ [⟨.libusb_handle_events_completed, env.ret tr.length⟩]) with
      | .next pongo_device tr1 => wait_for_device env rest pongo_device tr1
      | .exit c tr1 => .exit c tr1
      | .hang tr1 => .hang tr1 := by
  rw [wait_for_device]
  simp [exec]

theorem wait_some (env : Env) (pumps : List (List Hotplug)) (h : Handle) (tr : Trace) :
    wait_for_device env pumps (some h) tr = .next h tr := by
  cases pumps <;> rfl

theorem callback_disc (env : Env) (tr : Trace) (hp : Hotplug) (pd : Option Handle)
    (ht : DiscTrace tr) : DiscTrace (hotplug_callback env tr hp pd).trace := by
  by_cases he : hp.event = HotplugEvent.DEVICE_ARRIVED
  · by_cases hr : env.ret tr.length = 0
    · rw [callback_open_ok env tr hp pd he hr]
      exact ht.append (by simp [Op.isDiscoveryOp])
    · rw [callback_open_failed env tr hp pd he hr]
      exact ht.append (by simp [Op.isDiscoveryOp])
  · rw [callback_not_arrived env tr hp pd he]
    exact ht

theorem deliver_disc (env : Env) (hps : List Hotplug) :
    ∀ (pd : Option Handle) (tr : Trace), DiscTrace tr → DiscTrace (deliver env hps pd tr).trace := by
  induction hps with
  | nil => intro pd tr ht; exact ht
  | cons hp rest ih =>
    intro pd tr ht
    have hc := callback_disc env tr hp pd ht
    unfold deliver
    cases hcb : hotplug_callback env tr hp pd with
    | next v t1 => rw [hcb] at hc; exact ih v.2 t1 hc
    | exit c t1 => rw [hcb] at hc; exact hc
    | hang t1 => rw [hcb] at hc; exact hc

theorem wait_disc (env : Env) (pumps : List (List Hotplug)) :
    ∀ (pd : Option Handle) (tr : Trace), DiscTrace tr →
      DiscTrace (wait_for_device env pumps pd tr).trace := by
  induction pumps with
  | nil => intro pd tr ht; cases pd <;> exact ht
  | cons hps rest ih =>
    intro pd tr ht
    cases pd with
    | some h => exact ht
    | none =>
      have hd := deliver_disc env hps none
        (tr ++ [⟨.libusb_handle_events_completed, env.ret tr.length⟩])
        (ht.append (by simp [Op.isDiscoveryOp]))
      rw [wait_cons_none]
      cases hdl : deliver env hps none
        (tr ++ [⟨.libusb_handle_events_completed, env.ret tr.length⟩]) with
      | next v t1 => rw [hdl] at hd; exact ih v t1 hd
      | exit c t1 => rw [hdl] at hd; exact hd
      | hang t1 => rw [hdl] at hd; exact hd

theorem watch_disc (env : Env) (tr : Trace) (ht : DiscTrace tr) :
    DiscTrace (main_watch env tr).trace := by
  have hd := deliver_disc env env.enumerated none
    (tr ++ [⟨.libusb_hotplug_register_callback 0x5ac 0x4141, env.ret tr.length⟩])
    (ht.append (by simp [Op.isDiscoveryOp]))
  rw [main_watch_eq]
  cases hdl : deliver env env.enumerated none
    (tr ++ [⟨.libusb_hotplug_register_callback 0x5ac 0x4141, env.ret tr.length⟩]) with
  | exit c t1 => rw [hdl] at hd; exact hd
  | hang t1 => rw [hdl] at hd; exact hd
  | next v t1 =>
    rw [hdl] at hd
    simp only [Ctl.trace] at hd
    simp only []
    split_ifs
    · exact hd.append (by simp [Op.isDiscoveryOp])
    · have hw := wait_disc env env.pumps v t1 hd
      cases hwl : wait_for_device env env.pumps v t1 with
      | exit c t2 => rw [hwl] at hw; exact hw
      | hang t2 => rw [hwl] at hw; exact hw
      | next h t2 =>
        rw [hwl] at hw
        exact DiscTrace.append hw (by simp [Op.isDiscoveryOp])

theorem discovery_disc (env : Env) : DiscTrace (main_discovery env).trace := by
  have h0 : DiscTrace [] := by intro c hc; cases hc
  rw [main_discovery_eq]
  split_ifs
  · exact DiscTrace.append h0 (by simp [Op.isDiscoveryOp])
  · exact DiscTrace.append h0 (by simp [Op.isDiscoveryOp])
  · apply watch_disc
    exact DiscTrace.append h0 (by simp [Op.isDiscoveryOp])

theorem deliver_cons (env : Env) (hp : Hotplug) (rest : List Hotplug) (pd : Option Handle)
    (tr : Trace) :
    deliver env (hp :: rest) pd tr =
      match hotplug_callback env tr hp pd with
      | .next v tr1 => deliver env rest v.2 tr1
      | .exit c tr1 => .exit c tr1
      | .hang tr1 => .hang tr1 := by
  rw [deliver]

theorem arrivals_cons_arrived (hp : Hotplug) (rest : List Hotplug)
    (he : hp.event = HotplugEvent.DEVICE_ARRIVED) : arrivals (hp :: rest) = hp :: arrivals rest := by
  simp [arrivals, he]

theorem arrivals_cons_other (hp : Hotplug) (rest : List Hotplug)
    (he : hp.event ≠ HotplugEvent.DEVICE_ARRIVED) : arrivals (hp :: rest) = arrivals rest := by
  simp [arrivals, he]

theorem arrivals_append (a b : List Hotplug) : arrivals (a ++ b) = arrivals a ++ arrivals b := by
  simp [arrivals]

/-- What `deliver` does when it comes back: it has opened the device of every
arrival, each open returned 0, nothing else was called, and the handle is that of
the last arrival. -/
theorem deliver_next (env : Env) (hps : List Hotplug) :
    ∀ (pd pd1 : Option Handle) (tr tr1 : Trace), deliver env hps pd tr = .next pd1 tr1 →
      ∃ l, tr1 = tr ++ l ∧ ops l = opens (arrivals hps) ∧ (∀ c ∈ l, c.ret = 0) ∧
        pd1 = last_handle pd (arrivals hps) := by
  induction hps with
  | nil =>
    intro pd pd1 tr tr1 h
    simp only [deliver, Ctl.next.injEq] at h
    exact ⟨[], by simp [h.2], rfl, by simp, by simp [last_handle, arrivals, h.1]⟩
  | cons hp rest ih =>
    intro pd pd1 tr tr1 h
    rw [deliver_cons] at h
    by_cases he : hp.event = HotplugEvent.DEVICE_ARRIVED
    · by_cases hr : env.ret tr.length = 0
      · rw [callback_open_ok env tr hp pd he hr] at h
        obtain ⟨l, h1, h2, h3, h4⟩ := ih _ _ _ _ h
        refine ⟨⟨.libusb_open hp.device, env.ret tr.length⟩ :: l, ?_, ?_, ?_, ?_⟩
        · rw [h1]; simp
        · rw [arrivals_cons_arrived hp rest he]
          simp only [ops, opens, List.map_cons] at h2 ⊢
          rw [h2]
        · intro c hc
          rcases List.mem_cons.1 hc with rfl | hc
          · exact hr
          · exact h3 c hc
        · rw [arrivals_cons_arrived hp rest he, h4]
          simp [last_handle]
      · rw [callback_open_failed env tr hp pd he hr] at h
        cases h
    · rw [callback_not_arrived env tr hp pd he] at h
      rw [arrivals_cons_other hp rest he]
      exact ih _ _ _ _ h

/-- When `deliver` ends the process: the code is 1 and a `libusb_open` returned
a non-zero value. -/
theorem deliver_exit (env : Env) (hps : List Hotplug) :
    ∀ (pd : Option Handle) (tr : Trace) (c : Int) (tr1 : Trace),
      deliver env hps pd tr = .exit c tr1 →
      c = 1 ∧ ∃ x ∈ tr1, x.op.isOpen = true ∧ x.ret ≠ 0 := by
  induction hps with
  | nil => intro pd tr c tr1 h; simp [deliver] at h
  | cons hp rest ih =>
    intro pd tr c tr1 h
    rw [deliver_cons] at h
    by_cases he : hp.event = HotplugEvent.DEVICE_ARRIVED
    · by_cases hr : env.ret tr.length = 0
      · rw [callback_open_ok env tr hp pd he hr] at h
        exact ih _ _ _ _ h
      · rw [callback_open_failed env tr hp pd he hr] at h
        simp only [Ctl.exit.injEq] at h
        refine ⟨h.1.symm, ⟨.libusb_open hp.device, env.ret tr.length⟩, ?_, rfl, hr⟩
        rw [← h.2]; simp
    · rw [callback_not_arrived env tr hp pd he] at h
      exact ih _ _ _ _ h

theorem deliver_no_hang (env : Env) (hps : List Hotplug) :
    ∀ (pd : Option Handle) (tr tr1 : Trace), deliver env hps pd tr ≠ .hang tr1 := by
  induction hps with
  | nil => intro pd tr tr1 h; simp [deliver] at h
  | cons hp rest ih =>
    intro pd tr tr1 h
    rw [deliver_cons] at h
    by_cases he : hp.event = HotplugEvent.DEVICE_ARRIVED
    · by_cases hr : env.ret tr.length = 0
      · rw [callback_open_ok env tr hp pd he hr] at h
        exact ih _ _ _ h
      · rw [callback_open_failed env tr hp pd he hr] at h
        cases h
    · rw [callback_not_arrived env tr hp pd he] at h
      exact ih _ _ _ h

theorem last_handle_none (arr : List Hotplug) (h : last_handle none arr = none) : arr = [] := by
  cases arr with
  | nil => rfl
  | cons hp rest =>
    exfalso
    have : ∀ (l : List Hotplug) (x : Handle), last_handle (some x) l ≠ none := by
      intro l
      induction l with
      | nil => intro x hx; cases hx
      | cons y ys ihl => intro x hx; exact ihl y.handle hx
    exact this rest hp.handle h

theorem opens_session (arr : List Hotplug) : (opens arr).filter Op.isSessionOp = opens arr := by
  rw [List.filter_eq_self]
  intro o ho
  simp only [opens, List.mem_map] at ho
  obtain ⟨hp, _, rfl⟩ := ho
  rfl

/-- What the wait loop has done when it ends with a handle, having started
without one: it went through the first `k` calls of
`libusb_handle_events_completed`, opened the device of every arrival delivered by
them, each open returned 0, and the handle is that of the last of these arrivals. -/
theorem wait_next (env : Env) (pumps : List (List Hotplug)) :
    ∀ (tr : Trace) (h : Handle) (tr1 : Trace),
      wait_for_device env pumps none tr = .next h tr1 →
      ∃ k l, tr1 = tr ++ l ∧
        (ops l).filter Op.isSessionOp = opens (arrivals (pumps.take k).flatten) ∧
        (∀ c ∈ l, c.op.isOpen = true → c.ret = 0) ∧
        last_handle none (arrivals (pumps.take k).flatten) = some h := by
  induction pumps with
  | nil => intro tr h tr1 hw; simp [wait_for_device] at hw
  | cons hps rest ih =>
    intro tr h tr1 hw
    rw [wait_cons_none] at hw
    cases hd : deliver env hps none
        (tr ++ [⟨.libusb_handle_events_completed, env.ret tr.length⟩]) with
    | exit c t1 => rw [hd] at hw; cases hw
    | hang t1 => rw [hd] at hw; cases hw
    | next pd t1 =>
      rw [hd] at hw
      dsimp only at hw
      obtain ⟨l1, h1, h2, h3, h4⟩ := deliver_next env hps _ _ _ _ hd
      cases pd with
      | some h0 =>
        rw [wait_some] at hw
        simp only [Ctl.next.injEq] at hw
        obtain ⟨rfl, rfl⟩ := hw
        refine ⟨1, ⟨.libusb_handle_events_completed, env.ret tr.length⟩ :: l1, ?_, ?_, ?_, ?_⟩
        · rw [h1]; simp
        · have : ops (⟨.libusb_handle_events_completed, env.ret tr.length⟩ :: l1) =
              .libusb_handle_events_completed :: ops l1 := rfl
          rw [this, h2]
          simp [Op.isSessionOp, opens_session]
        · intro c hc ho
          rcases List.mem_cons.1 hc with rfl | hc
          · cases ho
          · exact h3 c hc
        · simpa using h4.symm
      | none =>
        have harr : arrivals hps = [] := last_handle_none _ h4.symm
        obtain ⟨k, l, g1, g2, g3, g4⟩ := ih _ _ _ hw
        have hl1 : l1 = [] := by
          rw [harr] at h2
          simpa [ops, opens] using h2
        refine ⟨k + 1, ⟨.libusb_handle_events_completed, env.ret tr.length⟩ :: l, ?_, ?_, ?_, ?_⟩
        · rw [g1, h1, hl1]; simp
        · have : ops (⟨.libusb_handle_events_completed, env.ret tr.length⟩ :: l) =
              .libusb_handle_events_completed :: ops l := rfl
          rw [this]
          simp only [List.take_succ_cons, List.flatten_cons, arrivals_append, harr,
            List.nil_append]
          rw [← g2]
          simp [Op.isSessionOp]
        · intro c hc ho
          rcases List.mem_cons.1 hc with rfl | hc
          · cases ho
          · exact g3 c hc ho
        · simpa [List.take_succ_cons, arrivals_append, harr] using g4

theorem wait_exit (env : Env) (pumps : List (List Hotplug)) :
    ∀ (pd : Option Handle) (tr : Trace) (c : Int) (tr1 : Trace),
      wait_for_device env pumps pd tr = .exit c tr1 →
      c = 1 ∧ ∃ x ∈ tr1, x.op.isOpen = true ∧ x.ret ≠ 0 := by
  induction pumps with
  | nil => intro pd tr c tr1 hw; cases pd <;> simp [wait_for_device] at hw
  | cons hps rest ih =>
    intro pd tr c tr1 hw
    cases pd with
    | some h0 => rw [wait_some] at hw; cases hw
    | none =>
      rw [wait_cons_none] at hw
      cases hd : deliver env hps none
          (tr ++ [⟨.libusb_handle_events_completed, env.ret tr.length⟩]) with
      | exit c1 t1 =>
        rw [hd] at hw
        simp only [Ctl.exit.injEq] at hw
        obtain ⟨rfl, rfl⟩ := hw
        exact deliver_exit env hps _ _ _ _ hd
      | hang t1 => rw [hd] at hw; cases hw
      | next pd1 t1 => rw [hd] at hw; exact ih _ _ _ _ hw

theorem wait_hang (env : Env) (pumps : List (List Hotplug)) :
    ∀ (pd : Option Handle) (tr tr1 : Trace),
      wait_for_device env pumps pd tr = .hang tr1 →
      pd = none ∧ arrivals pumps.flatten = [] := by
  induction pumps with
  | nil =>
    intro pd tr tr1 hw
    cases pd with
    | some h0 => simp [wait_for_device] at hw
    | none => exact ⟨rfl, rfl⟩
  | cons hps rest ih =>
    intro pd tr tr1 hw
    cases pd with
    | some h0 => rw [wait_some] at hw; cases hw
    | none =>
      rw [wait_cons_none] at hw
      cases hd : deliver env hps none
          (tr ++ [⟨.libusb_handle_events_completed, env.ret tr.length⟩]) with
      | exit c1 t1 => rw [hd] at hw; cases hw
      | hang t1 => exact absurd hd (deliver_no_hang env hps _ _ _)
      | next pd1 t1 =>
        rw [hd] at hw
        dsimp only at hw
        obtain ⟨hpd, hrest⟩ := ih _ _ _ hw
        obtain ⟨l1, h1, h2, h3, h4⟩ := deliver_next env hps _ _ _ _ hd
        rw [hpd] at h4
        have harr : arrivals hps = [] := last_handle_none _ h4.symm
        refine ⟨rfl, ?_⟩
        simp [arrivals_append, harr, hrest]

theorem open_rets_mid (a l b : Trace) (ha : ∀ c ∈ a, c.op.isOpen = false)
    (hb : ∀ c ∈ b, c.op.isOpen = false) (hl : ∀ c ∈ l, c.op.isOpen = true → c.ret = 0) :
    ∀ c ∈ a ++ l ++ b, c.op.isOpen = true → c.ret = 0 := by
  intro c hc ho
  rcases List.mem_append.1 hc with hc | hc
  · rcases List.mem_append.1 hc with hc | hc
    · rw [ha c hc] at ho; cases ho
    · exact hl c hc ho
  · rw [hb c hc] at ho; cases ho

/-- What lines 59-91 have done when they end with a handle. -/
theorem discovery_next (env : Env) (h : Handle) (t0 : Trace)
    (hd : main_discovery env = .next h t0) :
    2 ≤ env.argv.length ∧
    (∃ r0 r2, 0 ≤ r0 ∧ 0 ≤ r2 ∧ (⟨.libusb_init, r0⟩ : Call) ∈ t0 ∧
      (⟨.libusb_hotplug_register_callback 0x5ac 0x4141, r2⟩ : Call) ∈ t0) ∧
    (∀ c ∈ t0, c.op.isOpen = true → c.ret = 0) ∧
    ∃ arr rest, arrivals env.script = arr ++ rest ∧ last_handle none arr = some h ∧
      (ops t0).filter Op.isSessionOp = opens arr := by
  rw [main_discovery_eq] at hd
  by_cases ha : env.argv.length < 2
  · rw [if_pos ha] at hd; cases hd
  rw [if_neg ha] at hd
  by_cases hi : env.ret 0 < 0
  · rw [if_pos hi] at hd; cases hd
  rw [if_neg hi, main_watch_eq] at hd
  cases he : deliver env env.enumerated none
      ([⟨.libusb_init, env.ret 0⟩,
        ⟨.printf "Waiting for pongoOS device...\n" [], env.ret 1⟩] ++
        [⟨.libusb_hotplug_register_callback 0x5ac 0x4141,
          env.ret (List.length [(⟨.libusb_init, env.ret 0⟩ : Call),
            ⟨.printf "Waiting for pongoOS device...\n" [], env.ret 1⟩])⟩]) with
  | exit c1 t1 => rw [he] at hd; cases hd
  | hang t1 => rw [he] at hd; cases hd
  | next pd t1 =>
    rw [he] at hd
    dsimp only at hd
    obtain ⟨l1, h1, h2, h3, h4⟩ := deliver_next env env.enumerated _ _ _ _ he
    split_ifs at hd with hr
    cases hw : wait_for_device env env.pumps pd t1 with
    | exit c2 t2 => rw [hw] at hd; cases hd
    | hang t2 => rw [hw] at hd; cases hd
    | next h2' t2 =>
      rw [hw] at hd
      simp only [Ctl.next.injEq] at hd
      obtain ⟨rfl, rfl⟩ := hd
      refine ⟨by omega, ⟨env.ret 0, env.ret 2, by omega, by simpa using hr, ?_, ?_⟩, ?_⟩
      · cases pd with
        | some h0 =>
          rw [wait_some] at hw
          simp only [Ctl.next.injEq] at hw
          rw [← hw.2, h1]; simp
        | none =>
          obtain ⟨k, l, g1, -⟩ := wait_next env env.pumps _ _ _ hw
          rw [g1, h1]; simp
      · cases pd with
        | some h0 =>
          rw [wait_some] at hw
          simp only [Ctl.next.injEq] at hw
          rw [← hw.2, h1]; simp
        | none =>
          obtain ⟨k, l, g1, -⟩ := wait_next env env.pumps _ _ _ hw
          rw [g1, h1]; simp
      · cases pd with
        | some h0 =>
          rw [wait_some] at hw
          simp only [Ctl.next.injEq] at hw
          obtain ⟨rfl, rfl⟩ := hw
          refine ⟨?_, arrivals env.enumerated, arrivals env.pumps.flatten, ?_, h4.symm, ?_⟩
          · have key : ∀ c ∈ l1, c.op.isOpen = true → c.ret = 0 := fun c hc _ => h3 c hc
            rw [h1]
            exact open_rets_mid _ _ _ (by simp [Op.isOpen]) (by simp [Op.isOpen]) key
          · simp [Env.script, arrivals_append]
          · rw [h1]
            simp only [ops_append, List.filter_append, h2, opens_session]
            simp [ops, Op.isSessionOp]
        | none =>
          obtain ⟨k, l, g1, g2, g3, g4⟩ := wait_next env env.pumps _ _ _ hw
          have harr : arrivals env.enumerated = [] := last_handle_none _ h4.symm
          have hl1 : l1 = [] := by
            rw [harr] at h2
            simpa [ops, opens] using h2
          refine ⟨?_, arrivals (env.pumps.take k).flatten, arrivals (env.pumps.drop k).flatten,
            ?_, g4, ?_⟩
          · rw [g1, h1, hl1]
            exact open_rets_mid _ _ _ (by simp [Op.isOpen]) (by simp [Op.isOpen]) g3
          · rw [← arrivals_append, ← List.flatten_append, List.take_append_drop]
            simp [Env.script, arrivals_append, harr]
          · rw [g1, h1, hl1]
            simp only [ops_append, List.filter_append, g2]
            simp [ops, Op.isSessionOp]

/-- When lines 59-91 end the process: the code is 1, and the module path is
missing or a call has failed. -/
theorem discovery_exit (env : Env) (c : Int) (t : Trace)
    (hd : main_discovery env = .exit c t) :
    c = 1 ∧ (env.argv.length < 2 ∨ ∃ x ∈ t, (x.op.isOpen = true ∧ x.ret ≠ 0) ∨
      ((x.op = .libusb_init ∨ x.op = .libusb_hotplug_register_callback 0x5ac 0x4141) ∧
        x.ret < 0)) := by
  rw [main_discovery_eq] at hd
  by_cases ha : env.argv.length < 2
  · rw [if_pos ha] at hd
    simp only [Ctl.exit.injEq] at hd
    exact ⟨hd.1.symm, Or.inl ha⟩
  rw [if_neg ha] at hd
  by_cases hi : env.ret 0 < 0
  · rw [if_pos hi] at hd
    simp only [Ctl.exit.injEq] at hd
    refine ⟨hd.1.symm, Or.inr ⟨⟨.libusb_init, env.ret 0⟩, ?_, Or.inr ⟨Or.inl rfl, hi⟩⟩⟩
    rw [← hd.2]; simp
  rw [if_neg hi, main_watch_eq] at hd
  cases he : deliver env env.enumerated none
      ([⟨.libusb_init, env.ret 0⟩,
        ⟨.printf "Waiting for pongoOS device...\n" [], env.ret 1⟩] ++
        [⟨.libusb_hotplug_register_callback 0x5ac 0x4141,
          env.ret (List.length [(⟨.libusb_init, env.ret 0⟩ : Call),
            ⟨.printf "Waiting for pongoOS device...\n" [], env.ret 1⟩])⟩]) with
  | exit c1 t1 =>
    rw [he] at hd
    simp only [Ctl.exit.injEq] at hd
    obtain ⟨rfl, rfl⟩ := hd
    obtain ⟨g1, x, g2, g3⟩ := deliver_exit env env.enumerated _ _ _ _ he
    exact ⟨g1, Or.inr ⟨x, g2, Or.inl g3⟩⟩
  | hang t1 => rw [he] at hd; cases hd
  | next pd t1 =>
    rw [he] at hd
    dsimp only at hd
    obtain ⟨l1, h1, -⟩ := deliver_next env env.enumerated _ _ _ _ he
    split_ifs at hd with hr
    · simp only [Ctl.exit.injEq] at hd
      refine ⟨hd.1.symm, Or.inr ⟨⟨.libusb_hotplug_register_callback 0x5ac 0x4141, env.ret 2⟩,
        ?_, Or.inr ⟨Or.inr rfl, by simpa using hr⟩⟩⟩
      rw [← hd.2, h1]; simp
    · cases hw : wait_for_device env env.pumps pd t1 with
      | exit c2 t2 =>
        rw [hw] at hd
        simp only [Ctl.exit.injEq] at hd
        obtain ⟨rfl, rfl⟩ := hd
        obtain ⟨g1, x, g2, g3⟩ := wait_exit env env.pumps _ _ _ _ hw
        exact ⟨g1, Or.inr ⟨x, g2, Or.inl g3⟩⟩
      | hang t2 => rw [hw] at hd; cases hd
      | next h2 t2 => rw [hw] at hd; cases hd

/-- Lines 59-91 wait forever only if no device arrival is ever delivered. -/
theorem discovery_hang (env : Env) (t : Trace) (hd : main_discovery env = .hang t) :
    arrivals env.script = [] := by
  rw [main_discovery_eq] at hd
  by_cases ha : env.argv.length < 2
  · rw [if_pos ha] at hd; cases hd
  rw [if_neg ha] at hd
  by_cases hi : env.ret 0 < 0
  · rw [if_pos hi] at hd; cases hd
  rw [if_neg hi, main_watch_eq] at hd
  cases he : deliver env env.enumerated none
      ([⟨.libusb_init, env.ret 0⟩,
        ⟨.printf "Waiting for pongoOS device...\n" [], env.ret 1⟩] ++
        [⟨.libusb_hotplug_register_callback 0x5ac 0x4141,
          env.ret (List.length [(⟨.libusb_init, env.ret 0⟩ : Call),
            ⟨.printf "Waiting for pongoOS device...\n" [], env.ret 1⟩])⟩]) with
  | exit c1 t1 => rw [he] at hd; cases hd
  | hang t1 => exact absurd he (deliver_no_hang env env.enumerated _ _ _)
  | next pd t1 =>
    rw [he] at hd
    dsimp only at hd
    obtain ⟨l1, h1, h2, h3, h4⟩ := deliver_next env env.enumerated _ _ _ _ he
    split_ifs at hd with hr
    cases hw : wait_for_device env env.pumps pd t1 with
    | exit c2 t2 => rw [hw] at hd; cases hd
    | next h2 t2 => rw [hw] at hd; cases hd
    | hang t2 =>
      obtain ⟨g1, g2⟩ := wait_hang env env.pumps _ _ _ hw
      rw [g1] at h4
      have harr : arrivals env.enumerated = [] := last_handle_none _ h4.symm
      simp [Env.script, arrivals_append, harr, g2]

/-! ## The run as a whole -/

theorem main_of_next (env : Env) (h : Handle) (t0 : Trace)
    (hd : main_discovery env = .next h t0) : main env = main_session env h t0 := by
  unfold main; rw [hd]

theorem main_of_exit (env : Env) (c : Int) (t0 : Trace)
    (hd : main_discovery env = .exit c t0) : main env = .exit c t0 := by
  unfold main; rw [hd]

theorem main_of_hang (env : Env) (t0 : Trace)
    (hd : main_discovery env = .hang t0) : main env = .hang t0 := by
  unfold main; rw [hd]

theorem filter_ops_append_disc (p : Op → Bool) (t0 l : Trace) (ht : DiscTrace t0)
    (hp : ∀ o : Op, o.isDiscoveryOp = true → p o = false) :
    (ops (t0 ++ l)).filter p = (ops l).filter p := by
  rw [ops_append, List.filter_append, filter_ops_disc p t0 ht hp, List.nil_append]

/-! ## The session -/

theorem session_released (env : Env) (h : Handle) (t0 : Trace) (ht : DiscTrace t0) :
    ReleasedAndClosed h (main_session env h t0) := by
  have e1 := fun l => filter_ops_append_disc (fun o => o.isTransfer || o.isRelease || o.isClose)
    t0 l ht
    (by intro o; cases o <;> simp [Op.isDiscoveryOp, Op.isTransfer, Op.isRelease, Op.isClose])
  have e2 := fun l => filter_ops_append_disc Op.isTransfer t0 l ht
    (by intro o; cases o <;> simp [Op.isDiscoveryOp, Op.isTransfer])
  unfold main_session
  simp only [unwind, pongo_init_bulk_upload, pongo_do_bulk_upload, pongo_send_command_some, exec,
    List.length_append, List.length_cons, List.length_nil, List.append_assoc, List.singleton_append,
    List.cons_append, List.nil_append, Nat.add_assoc, Nat.reduceAdd]
  repeat' (apply ite_elim <;> intro _)
  all_goals
    simp only [ReleasedAndClosed, Outcome.trace, Outcome.code, e1, e2]
    exact ⟨⟨_, rfl⟩, rfl⟩


theorem filter_append_disc (p : Call → Bool) (t0 l : Trace) (ht : DiscTrace t0)
    (hp : ∀ c : Call, c.op.isDiscoveryOp = true → p c = false) :
    (t0 ++ l).filter p = l.filter p := by
  rw [List.filter_append]
  have : t0.filter p = [] := by
    rw [List.filter_eq_nil_iff]
    intro c hc
    simp [hp c (ht c hc)]
  rw [this, List.nil_append]

theorem session_transfers_stop (env : Env) (h : Handle) (t0 : Trace) (ht : DiscTrace t0) :
    TransfersStop (main_session env h t0) := by
  have e1 := fun l => filter_append_disc (fun x => x.op.isTransfer) t0 l ht
    (by rintro ⟨o, r⟩; cases o <;> simp [Op.isDiscoveryOp, Op.isTransfer])
  have e2 := fun l => filter_append_disc
    (fun x => (x.op.isInit || x.op.isBulk) && decide (x.ret < 0)) t0 l ht
    (by rintro ⟨o, r⟩; cases o <;> simp [Op.isDiscoveryOp, Op.isInit, Op.isBulk, Op.isRequest])
  have e3 := fun l => filter_ops_append_disc Op.isCommand t0 l ht
    (by intro o; cases o <;> simp [Op.isDiscoveryOp, Op.isCommand, Op.isRequest])
  have e4 := fun l => filter_ops_append_disc Op.isDiscard t0 l ht
    (by intro o; cases o <;> simp [Op.isDiscoveryOp, Op.isDiscard, Op.isRequest])
  have e5 := fun l => filter_ops_append_disc Op.isInit t0 l ht
    (by intro o; cases o <;> simp [Op.isDiscoveryOp, Op.isInit, Op.isRequest])
  have e6 := fun l => filter_ops_append_disc Op.isBulk t0 l ht
    (by intro o; cases o <;> simp [Op.isDiscoveryOp, Op.isBulk])
  unfold main_session
  simp only [unwind, pongo_init_bulk_upload, pongo_do_bulk_upload, pongo_send_command_some, exec,
    List.length_append, List.length_cons, List.length_nil, List.append_assoc, List.singleton_append,
    List.cons_append, List.nil_append, Nat.add_assoc, Nat.reduceAdd]
  repeat' (apply ite_elim <;> intro _)
  all_goals
    simp only [TransfersStop, Outcome.trace, e1, e2, e3, e4, e5, e6]
    simp [*, List.filter_cons, ops, Op.isTransfer, Op.isInit, Op.isBulk, Op.isCommand,
      Op.isDiscard, Op.isRequest, List.dropLast]
    try omega


theorem session_sleeps (env : Env) (h : Handle) (t0 : Trace) (ht : DiscTrace t0) :
    SleepsBetween h (main_session env h t0) := by
  have e1 := fun l => filter_ops_append_disc (fun o => o.isSleep || o.isCommand) t0 l ht
    (by intro o; cases o <;> simp [Op.isDiscoveryOp, Op.isSleep, Op.isCommand, Op.isRequest])
  have e2 := fun l => filter_append_disc (fun c => c.op.isModload && decide (0 ≤ c.ret)) t0 l ht
    (by rintro ⟨o, r⟩; cases o <;> simp [Op.isDiscoveryOp, Op.isModload])
  have e3 := fun l => filter_ops_append_disc Op.isSleep t0 l ht
    (by intro o; cases o <;> simp [Op.isDiscoveryOp, Op.isSleep])
  unfold main_session
  simp only [unwind, pongo_init_bulk_upload, pongo_do_bulk_upload, pongo_send_command_some, exec,
    strlen_modload, strlen_stalker_prep, strlen_bootx,
    List.length_append, List.length_cons, List.length_nil, List.append_assoc, List.singleton_append,
    List.cons_append, List.nil_append, Nat.add_assoc, Nat.reduceAdd]
  repeat' (apply ite_elim <;> intro _)
  all_goals
    simp only [SleepsBetween, Outcome.trace, e1, e2, e3]
    refine ⟨?_, ?_⟩
    · first
      | exact Or.inl rfl
      | exact Or.inr (Or.inl rfl)
      | exact Or.inr (Or.inr (Or.inl rfl))
      | exact Or.inr (Or.inr (Or.inr rfl))
    · first
      | exact Or.inr rfl
      | (left
         simp only [not_lt] at *
         simp [*, List.filter_cons, Op.isModload, cstr_modload, cstr_stalker_prep, cstr_bootx])

theorem session_file_failure (env : Env) (h : Handle) (t0 : Trace) (ht : DiscTrace t0) :
    FileFailureUnwinds h (main_session env h t0) := by
  have e1 := fun l => filter_append_disc (fun c => c.op.isFile && !c.ok) t0 l ht
    (by rintro ⟨o, r⟩; cases o <;> simp [Op.isDiscoveryOp, Op.isFile])
  have e2 := fun l => filter_ops_append_disc Op.isTransfer t0 l ht
    (by intro o; cases o <;> simp [Op.isDiscoveryOp, Op.isTransfer])
  have e3 := fun l => filter_ops_append_disc (fun o => o.isRelease || o.isClose) t0 l ht
    (by intro o; cases o <;> simp [Op.isDiscoveryOp, Op.isRelease, Op.isClose])
  have e4 := fun l => filter_append_disc (fun c => c.op.isClaim h && decide (0 ≤ c.ret)) t0 l ht
    (by rintro ⟨o, r⟩; cases o <;> simp [Op.isDiscoveryOp, Op.isClaim])
  unfold main_session
  simp only [unwind, pongo_init_bulk_upload, pongo_do_bulk_upload, pongo_send_command_some, exec,
    strlen_modload, strlen_stalker_prep, strlen_bootx,
    List.length_append, List.length_cons, List.length_nil, List.append_assoc, List.singleton_append,
    List.cons_append, List.nil_append, Nat.add_assoc, Nat.reduceAdd]
  repeat' (apply ite_elim <;> intro _)
  all_goals
    try simp only [not_lt, ne_eq, not_not] at *
    simp only [FileFailureUnwinds, Outcome.trace, Outcome.code, e1, e2, e3, e4]
    first
    | (left
       simp [*, List.filter_cons, Op.isFile, Call.ok]
       done)
    | (right
       refine ⟨trivial, rfl, rfl, ?_⟩
       simp [*, List.filter_cons, Op.isClaim])

theorem after_ops_append_disc (p : Op → Bool) (t0 l : Trace) (ht : DiscTrace t0)
    (hp : ∀ o : Op, o.isDiscoveryOp = true → p o = false) :
    after p (ops (t0 ++ l)) = after p (ops l) := by
  induction t0 with
  | nil => rfl
  | cons c t ih =>
    have hc : p c.op = false := hp c.op (ht c (by simp))
    have ih := ih (fun x hx => ht x (by simp [hx]))
    simp only [ops, List.cons_append, List.map_cons, after, hc] at ih ⊢
    simpa using ih

theorem session_mapping (env : Env) (h : Handle) (t0 : Trace) (ht : DiscTrace t0) :
    MappingReleased h (env.st_size % 2 ^ 64) (main_session env h t0) := by
  have e1 := fun l => filter_append_disc (fun c => c.op.isMmap && (c.ret != MAP_FAILED)) t0 l ht
    (by rintro ⟨o, r⟩; cases o <;> simp [Op.isDiscoveryOp, Op.isMmap])
  have e2 := fun l => filter_ops_append_disc (fun o => o.isMmap || o.isTransfer) t0 l ht
    (by intro o; cases o <;> simp [Op.isDiscoveryOp, Op.isMmap, Op.isTransfer])
  have e3 := fun l => filter_ops_append_disc Op.isMunmap t0 l ht
    (by intro o; cases o <;> simp [Op.isDiscoveryOp, Op.isMunmap])
  have e4 := fun l => filter_append_disc (fun c => c.op.isModload && decide (0 ≤ c.ret)) t0 l ht
    (by rintro ⟨o, r⟩; cases o <;> simp [Op.isDiscoveryOp, Op.isModload])
  have e5 := fun l => after_ops_append_disc Op.isModload t0 l ht
    (by intro o; cases o <;> simp [Op.isDiscoveryOp, Op.isModload])
  unfold main_session
  simp only [unwind, pongo_init_bulk_upload, pongo_do_bulk_upload, pongo_send_command_some, exec,
    strlen_modload, strlen_stalker_prep, strlen_bootx,
    List.length_append, List.length_cons, List.length_nil, List.append_assoc, List.singleton_append,
    List.cons_append, List.nil_append, Nat.add_assoc, Nat.reduceAdd]
  repeat' (apply ite_elim <;> intro _)
  all_goals
    try simp only [not_lt, ne_eq, not_not] at *
    simp only [MappingReleased, Outcome.trace, e1, e2, e3, e4, e5]
    first
    | (left
       simp [*, List.filter_cons, Op.isMmap]
       done)
    | (right
       refine ⟨env.ret (t0.length + 2), env.ret (t0.length + 4), by simp, rfl, rfl, ?_⟩
       first
       | exact Or.inr rfl
       | (left
          simp [*, List.filter_cons, Op.isModload, cstr_modload, cstr_stalker_prep, cstr_bootx]))

theorem session_code (env : Env) (h : Handle) (t0 : Trace) :
    CodeTellsSuccess t0 (main_session env h t0) := by
  unfold main_session
  simp only [unwind, pongo_init_bulk_upload, pongo_do_bulk_upload, pongo_send_command_some, exec,
    strlen_modload, strlen_stalker_prep, strlen_bootx,
    List.length_append, List.length_cons, List.length_nil, List.append_assoc, List.singleton_append,
    List.cons_append, List.nil_append, Nat.add_assoc, Nat.reduceAdd]
  repeat' (apply ite_elim <;> intro _)
  all_goals
    try simp only [not_lt, ne_eq, not_not] at *
    refine ⟨_, rfl, ?_⟩
    simp [*, Outcome.code, succeeded, List.filterMap_cons, Call.ok, Op.step, cstr_modload,
      cstr_stalker_prep, cstr_bootx]

theorem session_succeeds (env : Env) (h : Handle) (t0 : Trace) :
    SessionSucceeds h (env.st_size % 2 ^ 64) t0 (main_session env h t0) := by
  unfold main_session
  simp only [unwind, pongo_init_bulk_upload, pongo_do_bulk_upload, pongo_send_command_some, exec,
    strlen_modload, strlen_stalker_prep, strlen_bootx,
    List.length_append, List.length_cons, List.length_nil, List.append_assoc, List.singleton_append,
    List.cons_append, List.nil_append, Nat.add_assoc, Nat.reduceAdd]
  repeat' (apply ite_elim <;> intro _)
  all_goals
    refine ⟨_, rfl, ?_⟩
    first
    | exact Or.inr ⟨rfl, env.ret (t0.length + 4), rfl⟩
    | (left
       simp [*, List.filter_cons, Call.failed, Op.isChecked])

theorem session_failure (env : Env) (h : Handle) (t0 : Trace) :
    CodeTellsFailure t0 (main_session env h t0) := by
  unfold main_session
  simp only [unwind, pongo_init_bulk_upload, pongo_do_bulk_upload, pongo_send_command_some, exec,
    strlen_modload, strlen_stalker_prep, strlen_bootx,
    List.length_append, List.length_cons, List.length_nil, List.append_assoc, List.singleton_append,
    List.cons_append, List.nil_append, Nat.add_assoc, Nat.reduceAdd]
  repeat' (apply ite_elim <;> intro _)
  all_goals
    refine ⟨_, rfl, ?_⟩
    simp [*, Outcome.code, List.filter_cons, Call.failed, Op.isChecked]

theorem main_elim (P : Outcome → Prop) (env : Env)
    (hexit : ∀ c t, main_discovery env = .exit c t → DiscTrace t → P (.exit c t))
    (hhang : ∀ t, main_discovery env = .hang t → DiscTrace t → P (.hang t))
    (hnext : ∀ h t0, main_discovery env = .next h t0 → DiscTrace t0 →
      P (main_session env h t0)) : P (main env) := by
  have hd := discovery_disc env
  cases hm : main_discovery env with
  | next h t0 =>
    rw [hm] at hd
    rw [main_of_next env h t0 hm]
    exact hnext h t0 hm hd
  | exit c t =>
    rw [hm] at hd
    rw [main_of_exit env c t hm]
    exact hexit c t hm hd
  | hang t =>
    rw [hm] at hd
    rw [main_of_hang env t hm]
    exact hhang t hm hd

theorem dropLast_nonneg_last (l : List Call) (hl : ∀ c ∈ l.dropLast, 0 ≤ c.ret) :
    ∀ a c b, l = a ++ c :: b → c.ret < 0 → b = [] := by
  intro a c b hab hneg
  by_contra hb
  have hmem : c ∈ l.dropLast := by
    cases b with
    | nil => exact absurd rfl hb
    | cons x xs =>
      have hne : c :: x :: xs ≠ [] := by simp
      rw [hab, List.dropLast_append_of_ne_nil a hne]
      simp [List.dropLast]
  have := hl c hmem
  omega

theorem transfers_stop_disc (out : Outcome) (ht : DiscTrace out.trace) : TransfersStop out := by
  have e1 : out.trace.filter (fun x => x.op.isTransfer) = [] := by
    have := filter_append_disc (fun x => x.op.isTransfer) out.trace [] ht
      (by rintro ⟨o, r⟩; cases o <;> simp [Op.isDiscoveryOp, Op.isTransfer])
    simpa using this
  have e2 := filter_ops_disc Op.isCommand out.trace ht
    (by intro o; cases o <;> simp [Op.isDiscoveryOp, Op.isCommand, Op.isRequest])
  have e3 := filter_ops_disc Op.isDiscard out.trace ht
    (by intro o; cases o <;> simp [Op.isDiscoveryOp, Op.isDiscard, Op.isRequest])
  have e4 := filter_ops_disc Op.isInit out.trace ht
    (by intro o; cases o <;> simp [Op.isDiscoveryOp, Op.isInit, Op.isRequest])
  have e5 := filter_ops_disc Op.isBulk out.trace ht
    (by intro o; cases o <;> simp [Op.isDiscoveryOp, Op.isBulk])
  refine ⟨?_, Or.inr e2, e3, ?_, ?_⟩
  · rw [e1]; intro c hc; cases hc
  · rw [e4]; exact Nat.zero_le _
  · rw [e5]; exact Nat.zero_le _

/-! ## Claims about the run -/

/-- C2: in every run in which discovery produced an open device handle `dev`,
whatever fails afterwards, the process exits, and the transfers, releases and
closes of the run are: all the transfers, then exactly one release of interface 0
of `dev`, then exactly one close of `dev`. -/
theorem C2_release_then_close (env : Env) (dev : Handle)
    (hd : (main_discovery env).value? = some dev) :
    (∃ code, (main env).code = some code) ∧
    (ops (main env).trace).filter (fun o => o.isTransfer || o.isRelease || o.isClose) =
      (ops (main env).trace).filter Op.isTransfer ++
        [.libusb_release_interface dev 0, .libusb_close dev] := by
  have hdisc := discovery_disc env
  cases hm : main_discovery env with
  | next h t0 =>
    rw [hm] at hd hdisc
    simp only [Ctl.value?, Option.some.injEq] at hd
    subst hd
    rw [main_of_next env h t0 hm]
    exact session_released env h t0 hdisc
  | exit c t => rw [hm] at hd; cases hd
  | hang t => rw [hm] at hd; cases hd

/-- C2 at `env_one`, where a device arrives and every later step succeeds. -/
theorem C2_release_then_close_witness :
    (main_discovery env_one).value? = some 11 ∧
    (∃ code, (main env_one).code = some code) ∧
    (ops (main env_one).trace).filter (fun o => o.isTransfer || o.isRelease || o.isClose) =
      (ops (main env_one).trace).filter Op.isTransfer ++
        [.libusb_release_interface 11 0, .libusb_close 11] :=
  ⟨rfl, C2_release_then_close env_one 11 rfl⟩

/-- C6: in every run, a control or bulk transfer that returns a negative value
is the last transfer of the run; if the init or the bulk transfer fails no
command is sent; the discard transfer (0x21, request 2) is never issued; there
is at most one init and at most one bulk transfer. -/
theorem C6_failed_transfer_is_last (env : Env) :
    (∀ a c b, (main env).trace.filter (fun x => x.op.isTransfer) = a ++ c :: b →
      c.ret < 0 → b = []) ∧
    ((∃ c ∈ (main env).trace, (c.op.isInit || c.op.isBulk) = true ∧ c.ret < 0) →
      (ops (main env).trace).filter Op.isCommand = []) ∧
    (ops (main env).trace).filter Op.isDiscard = [] ∧
    ((ops (main env).trace).filter Op.isInit).length ≤ 1 ∧
    ((ops (main env).trace).filter Op.isBulk).length ≤ 1 := by
  have hts : TransfersStop (main env) :=
    main_elim TransfersStop env
      (fun c t _ ht => transfers_stop_disc (.exit c t) ht)
      (fun t _ ht => transfers_stop_disc (.hang t) ht)
      (fun h t0 _ ht => session_transfers_stop env h t0 ht)
  obtain ⟨h1, h2, h3, h4, h5⟩ := hts
  refine ⟨dropLast_nonneg_last _ h1, ?_, h3, h4, h5⟩
  rintro ⟨c, hc, hk, hneg⟩
  rcases h2 with h2 | h2
  · exfalso
    have hmem : c ∈ (main env).trace.filter
        (fun x => (x.op.isInit || x.op.isBulk) && decide (x.ret < 0)) := by
      rw [List.mem_filter]
      exact ⟨hc, by simp [hk, hneg]⟩
    rw [h2] at hmem
    cases hmem
  · exact h2

/-- C6 at `env_bulk_fails`: the bulk transfer returns -1 and no command is sent. -/
theorem C6_failed_transfer_is_last_witness :
    (∃ c ∈ (main env_bulk_fails).trace, (c.op.isInit || c.op.isBulk) = true ∧ c.ret < 0) ∧
    (ops (main env_bulk_fails).trace).filter Op.isCommand = [] :=
  have hfail : ∃ c ∈ (main env_bulk_fails).trace,
      (c.op.isInit || c.op.isBulk) = true ∧ c.ret < 0 :=
    ⟨⟨.libusb_bulk_transfer 11 2 0x10000 65536 0, -1⟩, by decide, by decide, by decide⟩
  ⟨hfail, (C6_failed_transfer_is_last env_bulk_fails).2.1 hfail⟩

theorem sleeps_disc (dev : Handle) (out : Outcome) (ht : DiscTrace out.trace) :
    SleepsBetween dev out := by
  have e1 := filter_ops_disc (fun o => o.isSleep || o.isCommand) out.trace ht
    (by intro o; cases o <;> simp [Op.isDiscoveryOp, Op.isSleep, Op.isCommand, Op.isRequest])
  have e2 := filter_ops_disc Op.isSleep out.trace ht
    (by intro o; cases o <;> simp [Op.isDiscoveryOp, Op.isSleep])
  exact ⟨Or.inl e1, Or.inr e2⟩

theorem not_file_of_disc (t : Trace) (ht : DiscTrace t) (c : Call) (hc : c ∈ t) :
    c.op.isFile = false ∧ c.op.isMmap = false := by
  have := ht c hc
  obtain ⟨o, r⟩ := c
  cases o <;> simp [Op.isDiscoveryOp, Op.isFile, Op.isMmap] at this ⊢

/-- C7: in every run, the sleeps and the commands are, in order, a beginning of
modload, 200 ms sleep, stalker-prep, 200 ms sleep, bootx that ends with a
command (`usleep` is called with 200 * 1000 microseconds): a sleep lies between
modload and stalker-prep whenever stalker-prep is sent, and between stalker-prep
and bootx whenever bootx is sent, and there is no other sleep; a run in which no
modload command returned a non-negative value has no sleep. -/
theorem C7_sleeps_between_commands (env : Env) :
    ((ops (main env).trace).filter (fun o => o.isSleep || o.isCommand) = [] ∨
      ∃ dev,
        (ops (main env).trace).filter (fun o => o.isSleep || o.isCommand) =
          [sendOp dev "modload\n"] ∨
        (ops (main env).trace).filter (fun o => o.isSleep || o.isCommand) =
          [sendOp dev "modload\n", .usleep (200 * 1000), sendOp dev "stalker-prep\n"] ∨
        (ops (main env).trace).filter (fun o => o.isSleep || o.isCommand) =
          [sendOp dev "modload\n", .usleep (200 * 1000), sendOp dev "stalker-prep\n",
            .usleep (200 * 1000), sendOp dev "bootx\n"]) ∧
    ((∀ c ∈ (main env).trace, c.op.isModload = true → c.ret < 0) →
      (ops (main env).trace).filter Op.isSleep = []) := by
  have hs : ∃ dev, SleepsBetween dev (main env) :=
    main_elim (fun out => ∃ dev, SleepsBetween dev out) env
      (fun c t _ ht => ⟨0, sleeps_disc 0 (.exit c t) ht⟩)
      (fun t _ ht => ⟨0, sleeps_disc 0 (.hang t) ht⟩)
      (fun h t0 _ ht => ⟨h, session_sleeps env h t0 ht⟩)
  obtain ⟨dev, h1, h2⟩ := hs
  refine ⟨?_, ?_⟩
  · rcases h1 with e | e | e | e
    · exact Or.inl e
    · exact Or.inr ⟨dev, Or.inl e⟩
    · exact Or.inr ⟨dev, Or.inr (Or.inl e)⟩
    · exact Or.inr ⟨dev, Or.inr (Or.inr e)⟩
  · intro hall
    rcases h2 with h2 | h2
    · exfalso
      obtain ⟨c, hc⟩ := List.exists_mem_of_ne_nil _ h2
      rw [List.mem_filter] at hc
      simp only [Bool.and_eq_true, decide_eq_true_eq] at hc
      have := hall c hc.1 hc.2.1
      omega
    · exact h2

/-- C7 at `env_modload_fails`: modload returns -1 and the run has no sleep. -/
theorem C7_sleeps_between_commands_witness :
    (∀ c ∈ (main env_modload_fails).trace, c.op.isModload = true → c.ret < 0) ∧
    (ops (main env_modload_fails).trace).filter Op.isSleep = [] :=
  have hfail : ∀ c ∈ (main env_modload_fails).trace, c.op.isModload = true → c.ret < 0 := by
    decide
  ⟨hfail, (C7_sleeps_between_commands env_modload_fails).2 hfail⟩

/-- C8: in every run in which `stat`, `open` or `mmap` of the module file fails,
the exit code is 1, no control or bulk transfer is issued, and the interface 0
that was claimed with success is released and the device closed. -/
theorem C8_file_failure (env : Env)
    (hfail : ∃ c ∈ (main env).trace, c.op.isFile = true ∧ c.ok = false) :
    (main env).code = some 1 ∧
    (ops (main env).trace).filter Op.isTransfer = [] ∧
    ∃ dev, (∃ c ∈ (main env).trace, c.op = .libusb_claim_interface dev 0 ∧ 0 ≤ c.ret) ∧
      (ops (main env).trace).filter (fun o => o.isRelease || o.isClose) =
        [.libusb_release_interface dev 0, .libusb_close dev] := by
  revert hfail
  refine main_elim (fun out => (∃ c ∈ out.trace, c.op.isFile = true ∧ c.ok = false) →
    out.code = some 1 ∧ (ops out.trace).filter Op.isTransfer = [] ∧
    ∃ dev, (∃ c ∈ out.trace, c.op = .libusb_claim_interface dev 0 ∧ 0 ≤ c.ret) ∧
      (ops out.trace).filter (fun o => o.isRelease || o.isClose) =
        [.libusb_release_interface dev 0, .libusb_close dev]) env ?_ ?_ ?_
  · rintro c t _ ht ⟨x, hx, hf, _⟩
    rw [(not_file_of_disc t ht x hx).1] at hf
    cases hf
  · rintro t _ ht ⟨x, hx, hf, _⟩
    rw [(not_file_of_disc t ht x hx).1] at hf
    cases hf
  · rintro h t0 _ ht ⟨x, hx, hf, hok⟩
    rcases session_file_failure env h t0 ht with hnone | ⟨h1, h2, h3, h4⟩
    · exfalso
      have hmem : x ∈ (main_session env h t0).trace.filter (fun c => c.op.isFile && !c.ok) := by
        rw [List.mem_filter]
        exact ⟨hx, by simp [hf, hok]⟩
      rw [hnone] at hmem
      cases hmem
    · refine ⟨h1, h2, h, ?_, h3⟩
      obtain ⟨c, hc⟩ := List.exists_mem_of_ne_nil _ h4
      rw [List.mem_filter] at hc
      simp only [Bool.and_eq_true, decide_eq_true_eq] at hc
      refine ⟨c, hc.1, ?_, hc.2.2⟩
      obtain ⟨o, r⟩ := c
      have hcl := hc.2.1
      cases o <;> simp [Op.isClaim] at hcl ⊢
      exact hcl

/-- C8 at `env_stat_fails`, where `stat` returns -1. -/
theorem C8_file_failure_witness :
    (∃ c ∈ (main env_stat_fails).trace, c.op.isFile = true ∧ c.ok = false) ∧
    (main env_stat_fails).code = some 1 ∧
    (ops (main env_stat_fails).trace).filter Op.isTransfer = [] ∧
    ∃ dev, (∃ c ∈ (main env_stat_fails).trace, c.op = .libusb_claim_interface dev 0 ∧ 0 ≤ c.ret) ∧
      (ops (main env_stat_fails).trace).filter (fun o => o.isRelease || o.isClose) =
        [.libusb_release_interface dev 0, .libusb_close dev] :=
  have hfail : ∃ c ∈ (main env_stat_fails).trace, c.op.isFile = true ∧ c.ok = false :=
    ⟨⟨.stat "module.bin", -1⟩, by decide, by decide, by decide⟩
  ⟨hfail, C8_file_failure env_stat_fails hfail⟩

/-- C9: in every run in which the module file is mapped, the process exits, the
mapping is created before the init transfer, which is the first transfer; the
mapping is unmapped exactly once; and if modload returned a non-negative value, the calls right
after the modload command are the unmap, the 200 ms sleep and stalker-prep. -/
theorem C9_mapping_unmapped_once (env : Env)
    (hmap : ∃ c ∈ (main env).trace, c.op.isMmap = true ∧ c.ret ≠ MAP_FAILED) :
    (∃ code, (main env).code = some code) ∧
    ∃ dev fd module_data,
      (⟨.mmap (env.st_size % 2 ^ 64) fd, module_data⟩ : Call) ∈ (main env).trace ∧
      ((ops (main env).trace).filter (fun o => o.isMmap || o.isTransfer)).take 2 =
        [.mmap (env.st_size % 2 ^ 64) fd, .libusb_control_transfer dev 0x21 1 0 0 none 0 0] ∧
      (ops (main env).trace).filter Op.isMunmap = [.munmap module_data (env.st_size % 2 ^ 64)] ∧
      ((∃ c ∈ (main env).trace, c.op.isModload = true ∧ 0 ≤ c.ret) →
        (after Op.isModload (ops (main env).trace)).take 3 =
          [.munmap module_data (env.st_size % 2 ^ 64), .usleep (200 * 1000),
            sendOp dev "stalker-prep\n"]) := by
  revert hmap
  refine main_elim (fun out => (∃ c ∈ out.trace, c.op.isMmap = true ∧ c.ret ≠ MAP_FAILED) →
    (∃ code, out.code = some code) ∧
    ∃ dev fd module_data,
      (⟨.mmap (env.st_size % 2 ^ 64) fd, module_data⟩ : Call) ∈ out.trace ∧
      ((ops out.trace).filter (fun o => o.isMmap || o.isTransfer)).take 2 =
        [.mmap (env.st_size % 2 ^ 64) fd, .libusb_control_transfer dev 0x21 1 0 0 none 0 0] ∧
      (ops out.trace).filter Op.isMunmap = [.munmap module_data (env.st_size % 2 ^ 64)] ∧
      ((∃ c ∈ out.trace, c.op.isModload = true ∧ 0 ≤ c.ret) →
        (after Op.isModload (ops out.trace)).take 3 =
          [.munmap module_data (env.st_size % 2 ^ 64), .usleep (200 * 1000),
            sendOp dev "stalker-prep\n"])) env ?_ ?_ ?_
  · rintro c t _ ht ⟨x, hx, hf, _⟩
    rw [(not_file_of_disc t ht x hx).2] at hf
    cases hf
  · rintro t _ ht ⟨x, hx, hf, _⟩
    rw [(not_file_of_disc t ht x hx).2] at hf
    cases hf
  · rintro h t0 _ ht ⟨x, hx, hf, hok⟩
    rcases session_mapping env h t0 ht with hnone | ⟨fd, md, h1, h2, h3, h4⟩
    · exfalso
      have hmem : x ∈ (main_session env h t0).trace.filter
          (fun c => c.op.isMmap && (c.ret != MAP_FAILED)) := by
        rw [List.mem_filter]
        exact ⟨hx, by simp [hf, hok]⟩
      rw [hnone] at hmem
      cases hmem
    · refine ⟨(session_released env h t0 ht).1, h, fd, md, h1, h2, h3, ?_⟩
      rintro ⟨c, hc, hm, hr⟩
      rcases h4 with h4 | h4
      · exfalso
        have hmem : c ∈ (main_session env h t0).trace.filter
            (fun c => c.op.isModload && decide (0 ≤ c.ret)) := by
          rw [List.mem_filter]
          exact ⟨hc, by simp [hm, hr]⟩
        rw [h4] at hmem
        cases hmem
      · exact h4

/-- C9 at `env_one`, where the file is mapped at 0x10000 and modload succeeds. -/
theorem C9_mapping_unmapped_once_witness :
    (∃ c ∈ (main env_one).trace, c.op.isMmap = true ∧ c.ret ≠ MAP_FAILED) ∧
    (∃ code, (main env_one).code = some code) ∧
    ∃ dev fd module_data,
      (⟨.mmap (env_one.st_size % 2 ^ 64) fd, module_data⟩ : Call) ∈ (main env_one).trace ∧
      ((ops (main env_one).trace).filter (fun o => o.isMmap || o.isTransfer)).take 2 =
        [.mmap (env_one.st_size % 2 ^ 64) fd,
          .libusb_control_transfer dev 0x21 1 0 0 none 0 0] ∧
      (ops (main env_one).trace).filter Op.isMunmap =
        [.munmap module_data (env_one.st_size % 2 ^ 64)] ∧
      ((∃ c ∈ (main env_one).trace, c.op.isModload = true ∧ 0 ≤ c.ret) →
        (after Op.isModload (ops (main env_one).trace)).take 3 =
          [.munmap module_data (env_one.st_size % 2 ^ 64), .usleep (200 * 1000),
            sendOp dev "stalker-prep\n"]) :=
  have hmap : ∃ c ∈ (main env_one).trace, c.op.isMmap = true ∧ c.ret ≠ MAP_FAILED :=
    ⟨⟨.mmap 65536 3, 0x10000⟩, by decide, by decide, by decide⟩
  ⟨hmap, C9_mapping_unmapped_once env_one hmap⟩

theorem succeeded_append (a b : Trace) : succeeded (a ++ b) = succeeded a ++ succeeded b := by
  simp [succeeded]

theorem mem_succeeded (t : Trace) (c : Call) (s : Step) (hc : c ∈ t) (hok : c.ok = true)
    (hs : c.op.step = some s) : s ∈ succeeded t := by
  simp only [succeeded, List.mem_filterMap]
  exact ⟨c, hc, by simp [hok, hs]⟩

theorem succeeded_disc (t : Trace) (ht : DiscTrace t) :
    ∀ s ∈ succeeded t, s = .libusb_init ∨ s = .hotplug_registration ∨ s = .device_open := by
  intro s hs
  simp only [succeeded, List.mem_filterMap] at hs
  obtain ⟨c, hc, hcs⟩ := hs
  have hd := ht c hc
  obtain ⟨o, r⟩ := c
  by_cases hok : Call.ok ⟨o, r⟩ = true
  · rw [if_pos hok] at hcs
    cases o <;> simp [Op.isDiscoveryOp, Op.step] at hd hcs <;> simp [← hcs]
  · rw [if_neg hok] at hcs
    cases hcs

theorem to_int_of_lt (n : Nat) (hn : n < 2 ^ 31) : to_int (n % 2 ^ 64) = (n : Int) := by
  have h1 : n % 2 ^ 64 = n := Nat.mod_eq_of_lt (by omega)
  have h2 : (n + 2 ^ 31) % 2 ^ 32 = n + 2 ^ 31 := Nat.mod_eq_of_lt (by omega)
  rw [h1, to_int, h2]
  push_cast
  ring

/-- Code 0 is the code of the runs in which each of the twelve steps has been
carried out with success; the other runs end with code 1 or, with no device
arrival in store, do not end. -/
theorem code_zero_iff_steps (env : Env) :
    ((main env).code = some 0 ↔
      2 ≤ env.argv.length ∧ ∀ s : Step, s ∈ succeeded (main env).trace) ∧
    ((main env).code = some 0 ∨ (main env).code = some 1 ∨
      ((main env).code = none ∧ arrivals env.script = [])) := by
  have hdisc := discovery_disc env
  cases hm : main_discovery env with
  | next h t0 =>
    rw [hm] at hdisc
    rw [main_of_next env h t0 hm]
    obtain ⟨hargs, ⟨r0, r2, hr0, hr2, hi, hr⟩, hopen, arr, rest, _, hlast, hfil⟩ :=
      discovery_next env h t0 hm
    have hboot : Step.cmd_bootx ∉ succeeded t0 := by
      intro hb
      rcases succeeded_disc t0 hdisc _ hb with e | e | e <;> cases e
    obtain ⟨l, hl, hcase⟩ := session_code env h t0
    rw [hl, succeeded_append]
    rcases hcase with ⟨hc, hs⟩ | ⟨hc, hs⟩
    · refine ⟨⟨fun _ => ⟨hargs, ?_⟩, fun _ => hc⟩, Or.inl hc⟩
      have h1 : Step.libusb_init ∈ succeeded t0 :=
        mem_succeeded t0 _ _ hi (by simpa [Call.ok] using hr0) rfl
      have h2 : Step.hotplug_registration ∈ succeeded t0 :=
        mem_succeeded t0 _ _ hr (by simpa [Call.ok] using hr2) rfl
      have h3 : Step.device_open ∈ succeeded t0 := by
        have hne : arr ≠ [] := by
          rintro rfl
          cases hlast
        obtain ⟨hp, hhp⟩ := List.exists_mem_of_ne_nil _ hne
        have hmem : Op.libusb_open hp.device ∈ (ops t0).filter Op.isSessionOp := by
          rw [hfil]
          exact List.mem_map.2 ⟨hp, hhp, rfl⟩
        have hmem2 := (List.mem_filter.1 hmem).1
        simp only [ops, List.mem_map] at hmem2
        obtain ⟨c, hc1, hc2⟩ := hmem2
        have hret : c.ret = 0 := hopen c hc1 (by rw [hc2]; rfl)
        exact mem_succeeded t0 c _ hc1 (by
          obtain ⟨o, r⟩ := c
          simp only at hc2 hret
          subst hc2 hret
          rfl) (by rw [hc2]; rfl)
      intro s
      rw [hs]
      cases s <;> simp [h1, h2, h3]
    · refine ⟨⟨fun h0 => ?_, fun hall => ?_⟩, Or.inr (Or.inl hc)⟩
      · rw [hc] at h0; cases h0
      · exfalso
        rcases List.mem_append.1 (hall.2 Step.cmd_bootx) with hb | hb
        · exact hboot hb
        · exact hs hb
  | exit c t =>
    rw [hm] at hdisc
    rw [main_of_exit env c t hm]
    obtain ⟨rfl, _⟩ := discovery_exit env c t hm
    refine ⟨⟨fun h0 => absurd h0 (by simp [Outcome.code]), fun hall => ?_⟩, Or.inr (Or.inl rfl)⟩
    exfalso
    rcases succeeded_disc t hdisc _ (hall.2 Step.cmd_bootx) with e | e | e <;> cases e
  | hang t =>
    rw [hm] at hdisc
    rw [main_of_hang env t hm]
    refine ⟨⟨fun h0 => absurd h0 (by simp [Outcome.code]), fun hall => ?_⟩,
      Or.inr (Or.inr ⟨rfl, discovery_hang env t hm⟩)⟩
    exfalso
    rcases succeeded_disc t hdisc _ (hall.2 Step.cmd_bootx) with e | e | e <;> cases e

theorem not_failed_of_ok (c : Call) (hok : c.ok = true) (ho : c.op.isOpen = true → c.ret ≤ 0) :
    c.failed = false := by
  obtain ⟨o, r⟩ := c
  cases o <;> simp [Call.failed, Call.ok, Op.isChecked, Op.isOpen] at hok ho ⊢ <;> omega

theorem deliver_nofail (env : Env) (hps : List Hotplug) (pd pd1 : Option Handle)
    (tr tr1 : Trace) (hn : ∀ c ∈ tr, c.failed = false)
    (hd : deliver env hps pd tr = .next pd1 tr1) : ∀ c ∈ tr1, c.failed = false := by
  obtain ⟨l, h1, h2, h3, -⟩ := deliver_next env hps pd pd1 tr tr1 hd
  intro c hc
  rw [h1] at hc
  rcases List.mem_append.1 hc with hc | hc
  · exact hn c hc
  · have hop : c.op ∈ opens (arrivals hps) := by
      rw [← h2]
      exact List.mem_map.2 ⟨c, hc, rfl⟩
    have hret := h3 c hc
    obtain ⟨o, r⟩ := c
    simp only [opens, List.mem_map] at hop
    obtain ⟨hp, _, rfl⟩ := hop
    simp only at hret
    subst hret
    rfl

theorem wait_nofail (env : Env) (pumps : List (List Hotplug)) :
    ∀ (pd : Option Handle) (tr : Trace), (∀ c ∈ tr, c.failed = false) →
      (∀ h t, wait_for_device env pumps pd tr = .next h t → ∀ c ∈ t, c.failed = false) ∧
      (∀ t, wait_for_device env pumps pd tr = .hang t → ∀ c ∈ t, c.failed = false) := by
  induction pumps with
  | nil =>
    intro pd tr hn
    cases pd with
    | some h0 =>
      refine ⟨fun h t hw => ?_, fun t hw => ?_⟩
      · rw [wait_some] at hw
        simp only [Ctl.next.injEq] at hw
        rw [← hw.2]; exact hn
      · rw [wait_some] at hw; cases hw
    | none =>
      refine ⟨fun h t hw => ?_, fun t hw => ?_⟩
      · simp [wait_for_device] at hw
      · simp only [wait_for_device, Ctl.hang.injEq] at hw
        rw [← hw]; exact hn
  | cons hps rest ih =>
    intro pd tr hn
    cases pd with
    | some h0 =>
      refine ⟨fun h t hw => ?_, fun t hw => ?_⟩
      · rw [wait_some] at hw
        simp only [Ctl.next.injEq] at hw
        rw [← hw.2]; exact hn
      · rw [wait_some] at hw; cases hw
    | none =>
      have hn1 : ∀ c ∈ tr ++ [(⟨.libusb_handle_events_completed, env.ret tr.length⟩ : Call)],
          c.failed = false := by
        intro c hc
        rcases List.mem_append.1 hc with hc | hc
        · exact hn c hc
        · simp only [List.mem_singleton] at hc
          subst hc
          rfl
      cases hd : deliver env hps none
          (tr ++ [⟨.libusb_handle_events_completed, env.ret tr.length⟩]) with
      | exit c1 t1 =>
        refine ⟨fun h t hw => ?_, fun t hw => ?_⟩
        · rw [wait_cons_none, hd] at hw; cases hw
        · rw [wait_cons_none, hd] at hw; cases hw
      | hang t1 => exact absurd hd (deliver_no_hang env hps _ _ _)
      | next pd1 t1 =>
        have hn2 := deliver_nofail env hps _ _ _ _ hn1 hd
        obtain ⟨i1, i2⟩ := ih pd1 t1 hn2
        refine ⟨fun h t hw => ?_, fun t hw => ?_⟩
        · rw [wait_cons_none, hd] at hw
          exact i1 h t hw
        · rw [wait_cons_none, hd] at hw
          exact i2 t hw

/-- When lines 59-91 end with a handle, or wait forever, a module path is given
and no checked call has failed. -/
theorem discovery_nofail (env : Env) :
    (∀ h t0, main_discovery env = .next h t0 →
      2 ≤ env.argv.length ∧ ∀ c ∈ t0, c.failed = false) ∧
    (∀ t, main_discovery env = .hang t →
      2 ≤ env.argv.length ∧ ∀ c ∈ t, c.failed = false) := by
  rw [main_discovery_eq]
  by_cases ha : env.argv.length < 2
  · rw [if_pos ha]
    exact ⟨fun h t0 hd => (by cases hd), fun t hd => (by cases hd)⟩
  rw [if_neg ha]
  by_cases hi : env.ret 0 < 0
  · rw [if_pos hi]
    exact ⟨fun h t0 hd => (by cases hd), fun t hd => (by cases hd)⟩
  rw [if_neg hi, main_watch_eq]
  cases he : deliver env env.enumerated none
      ([⟨.libusb_init, env.ret 0⟩,
        ⟨.printf "Waiting for pongoOS device...\n" [], env.ret 1⟩] ++
        [⟨.libusb_hotplug_register_callback 0x5ac 0x4141,
          env.ret (List.length [(⟨.libusb_init, env.ret 0⟩ : Call),
            ⟨.printf "Waiting for pongoOS device...\n" [], env.ret 1⟩])⟩]) with
  | exit c1 t1 => exact ⟨fun h t0 hd => (by cases hd), fun t hd => (by cases hd)⟩
  | hang t1 => exact absurd he (deliver_no_hang env env.enumerated _ _ _)
  | next pd t1 =>
    dsimp only
    by_cases hr : env.ret (List.length [(⟨.libusb_init, env.ret 0⟩ : Call),
        ⟨.printf "Waiting for pongoOS device...\n" [], env.ret 1⟩]) < 0
    · rw [if_pos hr]
      exact ⟨fun h t0 hd => (by cases hd), fun t hd => (by cases hd)⟩
    rw [if_neg hr]
    have hbase : ∀ c ∈ ([⟨.libusb_init, env.ret 0⟩,
        ⟨.printf "Waiting for pongoOS device...\n" [], env.ret 1⟩] ++
        [⟨.libusb_hotplug_register_callback 0x5ac 0x4141,
          env.ret (List.length [(⟨.libusb_init, env.ret 0⟩ : Call),
            ⟨.printf "Waiting for pongoOS device...\n" [], env.ret 1⟩])⟩] : Trace),
        c.failed = false := by
      intro c hc
      simp only [List.mem_append, List.mem_cons, List.mem_singleton, List.not_mem_nil,
        or_false] at hc
      rcases hc with (rfl | rfl) | rfl
      · simpa [Call.failed, Op.isChecked] using hi
      · rfl
      · simpa [Call.failed, Op.isChecked] using hr
    have hn1 := deliver_nofail env env.enumerated _ _ _ _ hbase he
    obtain ⟨i1, i2⟩ := wait_nofail env env.pumps pd t1 hn1
    cases hw : wait_for_device env env.pumps pd t1 with
    | exit c2 t2 => exact ⟨fun h t0 hd => (by cases hd), fun t hd => (by cases hd)⟩
    | hang t2 =>
      refine ⟨fun h t0 hd => (by cases hd), fun t hd => ?_⟩
      simp only [Ctl.hang.injEq] at hd
      subst hd
      exact ⟨by omega, i2 _ hw⟩
    | next h2 t2 =>
      refine ⟨fun h t0 hd => ?_, fun t hd => (by cases hd)⟩
      simp only [Ctl.next.injEq] at hd
      obtain ⟨-, rfl⟩ := hd
      refine ⟨by omega, ?_⟩
      intro c hc
      rcases List.mem_append.1 hc with hc | hc
      · exact i1 _ _ hw c hc
      · simp only [List.mem_cons, List.mem_singleton, List.not_mem_nil, or_false] at hc
        rcases hc with rfl | rfl <;> rfl

/-- A checked call that failed in a trace of lines 59-91 that ended the process. -/
theorem discovery_exit_failed (env : Env) (c : Int) (t : Trace)
    (hd : main_discovery env = .exit c t) (hargs : 2 ≤ env.argv.length) :
    ∃ x ∈ t, x.failed = true := by
  obtain ⟨_, hlt | ⟨x, hx, hcase⟩⟩ := discovery_exit env c t hd
  · omega
  · refine ⟨x, hx, ?_⟩
    obtain ⟨o, r⟩ := x
    rcases hcase with ⟨h1, h2⟩ | ⟨h1 | h1, h2⟩
    · cases o <;> simp [Op.isOpen] at h1
      simpa [Call.failed, Op.isChecked] using h2
    · simp only at h1 h2
      subst h1
      simpa [Call.failed, Op.isChecked] using h2
    · simp only at h1 h2
      subst h1
      simpa [Call.failed, Op.isChecked] using h2


/-- C3, counterexample: a module path is given, every call returns 0 and no
device arrival is ever delivered: after `libusb_init`, the message and the
registration the process waits in the event loop forever, so it has no exit
code, neither 0 nor 1, although the steps from the device open on never
succeed. -/
theorem C3_counterexample :
    2 ≤ env_zero.argv.length ∧
    main env_zero = .hang [⟨.libusb_init, 0⟩,
      ⟨.printf "Waiting for pongoOS device...\n" [], 0⟩,
      ⟨.libusb_hotplug_register_callback 0x5ac 0x4141, 0⟩] ∧
    (main env_zero).code = none ∧
    (main env_zero).code ≠ some 1 ∧
    Step.device_open ∉ succeeded (main env_zero).trace := by
  decide

/-- C3, amended: whenever the process exits, the exit code is 0 if and only if a
module path argument is given and no checked step fails (libusb init, hotplug
registration, device open, interface claim, stat, open, mmap, init upload, bulk
upload, the three commands), and then each of these twelve steps has been
carried out with success, a transport result counting as success exactly when it
is non-negative (`libusb_open` returning 0 or a negative code); every other exit
has code 1; and the process does not exit exactly when a module path is given,
no checked step fails and no device arrival is ever delivered. -/
theorem C3_exit_code (env : Env) :
    ((main env).code = some 0 ↔
      2 ≤ env.argv.length ∧ (∀ c ∈ (main env).trace, c.failed = false) ∧
        (main env).code ≠ none) ∧
    ((main env).code = some 0 ↔
      2 ≤ env.argv.length ∧ ∀ s : Step, s ∈ succeeded (main env).trace) ∧
    ((∀ c ∈ (main env).trace, c.op.isChecked = true →
        c.ok = true ∧ (c.op.isOpen = true → c.ret ≤ 0)) →
      ∀ c ∈ (main env).trace, c.failed = false) ∧
    (∀ k, (main env).code = some k → k = 0 ∨ k = 1) ∧
    ((main env).code = none ↔
      2 ≤ env.argv.length ∧ (∀ c ∈ (main env).trace, c.failed = false) ∧
        arrivals env.script = []) := by
  refine ⟨?_, (code_zero_iff_steps env).1, ?_, ?_, ?_⟩
  · cases hm : main_discovery env with
    | next h t0 =>
      rw [main_of_next env h t0 hm]
      obtain ⟨hargs, hn0⟩ := (discovery_nofail env).1 h t0 hm
      obtain ⟨l, hl, hcase⟩ := session_failure env h t0
      rw [hl]
      rcases hcase with ⟨hc, hf⟩ | ⟨hc, hf⟩
      · refine ⟨fun _ => ⟨hargs, ?_, by rw [hc]; simp⟩, fun _ => hc⟩
        intro c hcm
        rcases List.mem_append.1 hcm with h1 | h1
        · exact hn0 c h1
        · have := List.filter_eq_nil_iff.1 hf c h1
          simpa using this
      · refine ⟨fun h0 => ?_, fun hall => ?_⟩
        · rw [hc] at h0; cases h0
        · exfalso
          obtain ⟨x, hx⟩ := List.exists_mem_of_ne_nil _ hf
          rw [List.mem_filter] at hx
          have := hall.2.1 x (List.mem_append_right _ hx.1)
          rw [this] at hx
          cases hx.2
    | exit c t =>
      rw [main_of_exit env c t hm]
      obtain ⟨rfl, _⟩ := discovery_exit env c t hm
      refine ⟨fun h0 => absurd h0 (by simp [Outcome.code]), fun hall => ?_⟩
      exfalso
      obtain ⟨x, hx, hf⟩ := discovery_exit_failed env 1 t hm hall.1
      have := hall.2.1 x hx
      rw [this] at hf
      cases hf
    | hang t =>
      rw [main_of_hang env t hm]
      exact ⟨fun h0 => absurd h0 (by simp [Outcome.code]),
        fun hall => absurd rfl hall.2.2⟩
  · intro hall c hc
    by_cases hch : c.op.isChecked = true
    · exact not_failed_of_ok c (hall c hc hch).1 (hall c hc hch).2
    · simp [Call.failed, hch]
  · intro k hk
    rcases (code_zero_iff_steps env).2 with h0 | h1 | h2
    · rw [h0] at hk
      simp only [Option.some.injEq] at hk
      exact Or.inl hk.symm
    · rw [h1] at hk
      simp only [Option.some.injEq] at hk
      exact Or.inr hk.symm
    · rw [h2.1] at hk; cases hk
  · cases hm : main_discovery env with
    | next h t0 =>
      rw [main_of_next env h t0 hm]
      obtain ⟨l, hl, hcase⟩ := session_failure env h t0
      obtain ⟨_, _, _, arr, rest, hsplit, hlast, _⟩ := discovery_next env h t0 hm
      refine ⟨fun h0 => ?_, fun hall => ?_⟩
      · rcases hcase with ⟨hc, _⟩ | ⟨hc, _⟩ <;> rw [hc] at h0 <;> cases h0
      · exfalso
        rw [hall.2.2] at hsplit
        have : arr = [] := (List.append_eq_nil.1 hsplit.symm).1
        rw [this] at hlast
        cases hlast
    | exit c t =>
      rw [main_of_exit env c t hm]
      refine ⟨fun h0 => absurd h0 (by simp [Outcome.code]), fun hall => ?_⟩
      exfalso
      obtain ⟨x, hx, hf⟩ := discovery_exit_failed env c t hm hall.1
      have := hall.2.1 x hx
      rw [this] at hf
      cases hf
    | hang t =>
      rw [main_of_hang env t hm]
      obtain ⟨hargs, hn⟩ := (discovery_nofail env).2 t hm
      exact ⟨fun _ => ⟨hargs, hn, discovery_hang env t hm⟩, fun _ => rfl⟩

/-- C3, amended, at `env_one`: a module path is given, no checked call fails and
the process exits, so the code is 0. -/
theorem C3_exit_code_witness :
    (2 ≤ env_one.argv.length ∧ (∀ c ∈ (main env_one).trace, c.failed = false) ∧
      (main env_one).code ≠ none) ∧
    (main env_one).code = some 0 :=
  have hall : 2 ≤ env_one.argv.length ∧ (∀ c ∈ (main env_one).trace, c.failed = false) ∧
      (main env_one).code ≠ none := by decide
  ⟨hall, (C3_exit_code env_one).1.2 hall⟩

/-- C1, counterexample: with two matching devices attached when the callback is
registered, no call fails and the run has two opens (the handle claimed is that
of the second device); with a module file of 4 GiB, no call fails and the bulk
transfer is asked to carry 0 bytes (the `size_t` size is converted to the `int`
length of `libusb_bulk_transfer`). -/
theorem C1_counterexample :
    ((∀ c ∈ (main env_two).trace, c.failed = false) ∧
      (main env_two).code = some 0 ∧
      (ops (main env_two).trace).filter Op.isSessionOp =
        [.libusb_open 1, .libusb_open 2, .libusb_claim_interface 12 0,
          .libusb_control_transfer 12 0x21 1 0 0 none 0 0,
          .libusb_bulk_transfer 12 2 0x10000 65536 0,
          sendOp 12 "modload\n", .usleep 200000, sendOp 12 "stalker-prep\n", .usleep 200000,
          sendOp 12 "bootx\n", .libusb_release_interface 12 0, .libusb_close 12]) ∧
    ((∀ c ∈ (main env_huge).trace, c.failed = false) ∧
      (main env_huge).code = some 0 ∧
      env_huge.st_size = 4294967296 ∧
      (ops (main env_huge).trace).filter Op.isBulk =
        [.libusb_bulk_transfer 11 2 0x10000 0 0]) := by
  decide

/-- C1, amended: for every module file of size N < 2^31 and every transport in
which exactly one device arrival is delivered and no checked call fails, when a
module path is given, the device-session operations of the run are exactly:
open, claim interface 0, control transfer (0x21, request 1, no payload), one
bulk transfer of N bytes to endpoint 2, control transfer carrying `"modload\n"`,
sleep 200 ms, control transfer carrying `"stalker-prep\n"`, sleep 200 ms, control
transfer carrying `"bootx\n"`, release interface 0, close; and the exit code is 0. -/
theorem C1_success_sequence (env : Env) (hp : Hotplug)
    (hargs : 2 ≤ env.argv.length) (hsize : env.st_size < 2 ^ 31)
    (harr : arrivals env.script = [hp])
    (hok : ∀ c ∈ (main env).trace, c.failed = false) :
    (main env).code = some 0 ∧
    ∃ module_data : Int,
      (ops (main env).trace).filter Op.isSessionOp =
        [.libusb_open hp.device, .libusb_claim_interface hp.handle 0,
          .libusb_control_transfer hp.handle 0x21 1 0 0 none 0 0,
          .libusb_bulk_transfer hp.handle 2 module_data env.st_size 0,
          sendOp hp.handle "modload\n", .usleep (200 * 1000),
          sendOp hp.handle "stalker-prep\n", .usleep (200 * 1000),
          sendOp hp.handle "bootx\n",
          .libusb_release_interface hp.handle 0, .libusb_close hp.handle] := by
  have hnf : ∀ x ∈ (main env).trace, x.failed = true → False := by
    intro x hx hf
    rw [hok x hx] at hf
    cases hf
  cases hm : main_discovery env with
  | exit c t =>
    exfalso
    rw [main_of_exit env c t hm] at hnf
    obtain ⟨_, hlt | ⟨x, hx, hcase⟩⟩ := discovery_exit env c t hm
    · omega
    · apply hnf x hx
      obtain ⟨o, r⟩ := x
      rcases hcase with ⟨h1, h2⟩ | ⟨h1 | h1, h2⟩
      · cases o <;> simp [Op.isOpen] at h1
        simpa [Call.failed, Op.isChecked] using h2
      · simp only at h1 h2
        subst h1
        simpa [Call.failed, Op.isChecked] using h2
      · simp only at h1 h2
        subst h1
        simpa [Call.failed, Op.isChecked] using h2
  | hang t =>
    exfalso
    rw [discovery_hang env t hm] at harr
    cases harr
  | next h t0 =>
    obtain ⟨_, _, _, arr, rest, hsplit, hlast, hfil⟩ := discovery_next env h t0 hm
    rw [harr] at hsplit
    have harr1 : arr = [hp] := by
      cases arr with
      | nil => cases hlast
      | cons a as =>
        simp only [List.cons_append, List.cons.injEq] at hsplit
        obtain ⟨rfl, h2⟩ := hsplit
        have : as = [] := (List.append_eq_nil.1 h2.symm).1
        rw [this]
    subst harr1
    have hh : h = hp.handle := by
      simp only [last_handle, List.foldl, Option.some.injEq] at hlast
      exact hlast.symm
    subst hh
    rw [main_of_next env _ t0 hm] at hnf ⊢
    obtain ⟨l, hl, hcase⟩ := session_succeeds env hp.handle t0
    rcases hcase with hfail | ⟨hc, md, hseq⟩
    · exfalso
      obtain ⟨x, hx⟩ := List.exists_mem_of_ne_nil _ hfail
      rw [List.mem_filter] at hx
      exact hnf x (by rw [hl]; exact List.mem_append_right _ hx.1) hx.2
    · refine ⟨hc, md, ?_⟩
      rw [hl, ops_append, List.filter_append, hfil, hseq, to_int_of_lt _ hsize]
      rfl

/-- C1, amended, at `env_one`: a module of 64 KiB and one device. -/
theorem C1_success_sequence_witness :
    2 ≤ env_one.argv.length ∧ env_one.st_size < 2 ^ 31 ∧
    arrivals env_one.script = [⟨.DEVICE_ARRIVED, 1, 11⟩] ∧
    (∀ c ∈ (main env_one).trace, c.failed = false) ∧
    (main env_one).code = some 0 ∧
    ∃ module_data : Int,
      (ops (main env_one).trace).filter Op.isSessionOp =
        [.libusb_open 1, .libusb_claim_interface 11 0,
          .libusb_control_transfer 11 0x21 1 0 0 none 0 0,
          .libusb_bulk_transfer 11 2 module_data env_one.st_size 0,
          sendOp 11 "modload\n", .usleep (200 * 1000),
          sendOp 11 "stalker-prep\n", .usleep (200 * 1000),
          sendOp 11 "bootx\n",
          .libusb_release_interface 11 0, .libusb_close 11] :=
  have h1 : 2 ≤ env_one.argv.length := by decide
  have h2 : env_one.st_size < 2 ^ 31 := by decide
  have h3 : arrivals env_one.script = [⟨.DEVICE_ARRIVED, 1, 11⟩] := by decide
  have h4 : ∀ c ∈ (main env_one).trace, c.failed = false := by decide
  ⟨h1, h2, h3, h4, C1_success_sequence env_one ⟨.DEVICE_ARRIVED, 1, 11⟩ h1 h2 h3 h4⟩

/-- C5, counterexample: for the text `modload` the control transfer carries
`modload` followed by a NUL byte, not by a newline; for the empty text it
carries a lone NUL byte, not a newline. -/
theorem C5_counterexample :
    (pongo_send_command env_zero [] 7 (some (cstr "modload"))).2 =
      [⟨.libusb_control_transfer 7 0x21 3 0 0 (some (cstr "modload")) 8 0, 0⟩] ∧
    payload (some (cstr "modload")) 8 = [109, 111, 100, 108, 111, 97, 100, 0] ∧
    payload (some (cstr "modload")) 8 ≠ [109, 111, 100, 108, 111, 97, 100, 10] ∧
    (pongo_send_command env_zero [] 7 (some (cstr ""))).2 =
      [⟨.libusb_control_transfer 7 0x21 3 0 0 (some (cstr "")) 1 0, 0⟩] ∧
    payload (some (cstr "")) 1 = [0] ∧
    payload (some (cstr "")) 1 ≠ [10] := by
  decide

/-- C5, amended: for every command text `c` (bytes without NUL, followed in
memory by its NUL, `strlen(c)+1 < 2^16`) passed to `pongo_send_command`, the
control transfer carries `c` followed by a single NUL byte, and the channel
appends no newline; for the empty text it carries a lone NUL byte.  The newline
belongs to the texts that `main` passes: the only commands of a run are
`"modload\n"`, `"stalker-prep\n"` and `"bootx\n"`, carried as those bytes
followed by NUL. -/
theorem C5_payload_nul_terminated (env : Env) (tr : Trace) (dev : Handle) (c rest : List Nat)
    (hc : ∀ b ∈ c, b ≠ 0) (hlen : c.length + 1 < 2 ^ 16) :
    (∃ data wLength,
      (pongo_send_command env tr dev (some (c ++ 0 :: rest))).2 =
        tr ++ [⟨.libusb_control_transfer dev 0x21 3 0 0 data wLength 0, env.ret tr.length⟩] ∧
      payload data wLength = c ++ [0] ∧ payload data wLength ≠ c ++ [10]) ∧
    (∃ data wLength,
      (pongo_send_command env tr dev (some (0 :: rest))).2 =
        tr ++ [⟨.libusb_control_transfer dev 0x21 3 0 0 data wLength 0, env.ret tr.length⟩] ∧
      payload data wLength = [0]) ∧
    (∀ o ∈ ops (main env).trace, o.isCommand = true →
      ∃ d, o = sendOp d "modload\n" ∨ o = sendOp d "stalker-prep\n" ∨ o = sendOp d "bootx\n") ∧
    payload (some (cstr "modload\n")) ("modload\n".length + 1) =
      [109, 111, 100, 108, 111, 97, 100, 10, 0] ∧
    payload (some (cstr "stalker-prep\n")) ("stalker-prep\n".length + 1) =
      [115, 116, 97, 108, 107, 101, 114, 45, 112, 114, 101, 112, 10, 0] ∧
    payload (some (cstr "bootx\n")) ("bootx\n".length + 1) = [98, 111, 111, 116, 120, 10, 0] := by
  have hs := strlen_append_nul c rest hc
  have h0 : strlen (0 :: rest) = 0 := by simp [strlen]
  have h64 : (1 + c.length) % 2 ^ 64 = c.length + 1 := by
    rw [Nat.mod_eq_of_lt (by omega)]; omega
  have h16 : (c.length + 1) % 2 ^ 16 = c.length + 1 := Nat.mod_eq_of_lt hlen
  have hpay : payload (some (c ++ 0 :: rest)) (c.length + 1) = c ++ [0] := by
    simp [payload, List.take_append_eq_append_take]
  refine ⟨⟨some (c ++ 0 :: rest), c.length + 1, ?_, hpay, ?_⟩,
    ⟨some (0 :: rest), 1, ?_, by simp [payload]⟩, ?_, by decide, by decide, by decide⟩
  · rw [pongo_send_command_some, hs, h64, h16]
  · rw [hpay]
    intro h
    have := List.append_cancel_left h
    simp at this
  · rw [pongo_send_command_some, h0]
    rfl
  · have hs : ∃ d, SleepsBetween d (main env) :=
      main_elim (fun out => ∃ d, SleepsBetween d out) env
        (fun c t _ ht => ⟨0, sleeps_disc 0 (.exit c t) ht⟩)
        (fun t _ ht => ⟨0, sleeps_disc 0 (.hang t) ht⟩)
        (fun h t0 _ ht => ⟨h, session_sleeps env h t0 ht⟩)
    obtain ⟨d, h1, -⟩ := hs
    intro o ho hcmd
    have hmem : o ∈ (ops (main env).trace).filter (fun o => o.isSleep || o.isCommand) := by
      rw [List.mem_filter]
      exact ⟨ho, by simp [hcmd]⟩
    refine ⟨d, ?_⟩
    rcases h1 with e | e | e | e
    · rw [e] at hmem; cases hmem
    · rw [e] at hmem
      simp only [List.mem_singleton] at hmem
      exact Or.inl hmem
    · rw [e] at hmem
      simp only [List.mem_cons, List.mem_singleton, List.not_mem_nil, or_false] at hmem
      rcases hmem with h | h | h
      · exact Or.inl h
      · rw [h] at hcmd; cases hcmd
      · exact Or.inr (Or.inl h)
    · rw [e] at hmem
      simp only [List.mem_cons, List.mem_singleton, List.not_mem_nil, or_false] at hmem
      rcases hmem with h | h | h | h | h
      · exact Or.inl h
      · rw [h] at hcmd; cases hcmd
      · exact Or.inr (Or.inl h)
      · rw [h] at hcmd; cases hcmd
      · exact Or.inr (Or.inr h)

/-- C5, amended, at the text `modload\n` of `main`. -/
theorem C5_payload_nul_terminated_witness :
    (∀ b ∈ [109, 111, 100, 108, 111, 97, 100, 10], b ≠ 0) ∧
    [109, 111, 100, 108, 111, 97, 100, 10].length + 1 < 2 ^ 16 ∧
    ∃ data wLength,
      (pongo_send_command env_one [] 11
          (some ([109, 111, 100, 108, 111, 97, 100, 10] ++ 0 :: []))).2 =
        [] ++ [⟨.libusb_control_transfer 11 0x21 3 0 0 data wLength 0,
          env_one.ret ([] : Trace).length⟩] ∧
      payload data wLength = [109, 111, 100, 108, 111, 97, 100, 10] ++ [0] ∧
      payload data wLength ≠ [109, 111, 100, 108, 111, 97, 100, 10] ++ [10] :=
  ⟨by decide, by decide,
    (C5_payload_nul_terminated env_one [] 11 [109, 111, 100, 108, 111, 97, 100, 10] []
      (by decide) (by decide)).1⟩

/-- C10, counterexample: two arrival events delivered one after the other, both
opens succeeding: the second event opens another device and replaces the handle
(12 instead of 11); in the run of `env_two`, discovery ends with the handle of
the second arrival, having opened both devices. -/
theorem C10_counterexample :
    deliver env_zero [⟨.DEVICE_ARRIVED, 1, 11⟩, ⟨.DEVICE_ARRIVED, 2, 12⟩] none [] =
      .next (some 12) [⟨.libusb_open 1, 0⟩, ⟨.libusb_open 2, 0⟩] ∧
    (main_discovery env_two).value? = some 12 ∧
    (ops (main_discovery env_two).trace).filter Op.isOpen = [.libusb_open 1, .libusb_open 2] := by
  decide

/-- C10, amended: an event other than device-arrival leaves the handle unchanged
and opens nothing; a device-arrival event makes the callback open that device,
and when the open returns 0 the handle becomes the newly opened one; so after a
delivery that comes back, every arrival in it has been opened and the handle is
that of the last arrival; and when the events of the run contain exactly one
arrival and discovery ends with a handle, exactly one device was opened and the
handle is the one opened for that arrival. -/
theorem C10_discovery_resolves (env : Env) (tr : Trace) (pd : Option Handle) :
    (∀ hp : Hotplug, hp.event ≠ HotplugEvent.DEVICE_ARRIVED →
      hotplug_callback env tr hp pd = .next (0, pd) tr) ∧
    (∀ hp : Hotplug, hp.event = HotplugEvent.DEVICE_ARRIVED → env.ret tr.length = 0 →
      hotplug_callback env tr hp pd =
        .next (0, some hp.handle) (tr ++ [⟨.libusb_open hp.device, env.ret tr.length⟩])) ∧
    (∀ (hps : List Hotplug) (pd1 : Option Handle) (tr1 : Trace),
      deliver env hps pd tr = .next pd1 tr1 →
      ops tr1 = ops tr ++ opens (arrivals hps) ∧ pd1 = last_handle pd (arrivals hps)) ∧
    (∀ (hp : Hotplug) (dev : Handle) (t0 : Trace), arrivals env.script = [hp] →
      main_discovery env = .next dev t0 →
      dev = hp.handle ∧ (ops t0).filter Op.isOpen = [.libusb_open hp.device]) := by
  refine ⟨fun hp he => callback_not_arrived env tr hp pd he,
    fun hp he hr => callback_open_ok env tr hp pd he hr, ?_, ?_⟩
  · intro hps pd1 tr1 hd
    obtain ⟨l, h1, h2, -, h4⟩ := deliver_next env hps pd pd1 tr tr1 hd
    exact ⟨by rw [h1, ops_append, h2], h4⟩
  · intro hp dev t0 harr hm
    obtain ⟨_, _, _, arr, rest, hsplit, hlast, hfil⟩ := discovery_next env dev t0 hm
    rw [harr] at hsplit
    have harr1 : arr = [hp] := by
      cases arr with
      | nil => cases hlast
      | cons a as =>
        simp only [List.cons_append, List.cons.injEq] at hsplit
        obtain ⟨rfl, h2⟩ := hsplit
        have : as = [] := (List.append_eq_nil.1 h2.symm).1
        rw [this]
    subst harr1
    refine ⟨?_, ?_⟩
    · simp only [last_handle, List.foldl, Option.some.injEq] at hlast
      exact hlast.symm
    · have hsub : (ops t0).filter Op.isOpen =
          ((ops t0).filter Op.isSessionOp).filter Op.isOpen := by
        rw [List.filter_filter]
        congr 1
        funext o
        cases o <;> rfl
      rw [hsub, hfil]
      rfl

/-- C10, amended, at `env_one`: the one arrival is opened once and gives the handle. -/
theorem C10_discovery_resolves_witness :
    arrivals env_one.script = [⟨.DEVICE_ARRIVED, 1, 11⟩] ∧
    main_discovery env_one = .next 11 (main_discovery env_one).trace ∧
    (11 : Handle) = (⟨.DEVICE_ARRIVED, 1, 11⟩ : Hotplug).handle ∧
    (ops (main_discovery env_one).trace).filter Op.isOpen = [.libusb_open 1] :=
  have h1 : arrivals env_one.script = [⟨.DEVICE_ARRIVED, 1, 11⟩] := by decide
  have h2 : main_discovery env_one = .next 11 (main_discovery env_one).trace := by decide
  ⟨h1, h2, (C10_discovery_resolves env_one [] none).2.2.2 ⟨.DEVICE_ARRIVED, 1, 11⟩ 11 _ h1 h2⟩

end Loader
